import Mathlib

/-!
# Subscription service: validation and persistence pipeline

A shallow embedding of `internal/service/subscription.go`,
`internal/repository/subscription.go` and the read handler of
`internals/handler/subscription.go`.

* Go strings are byte sequences (`GoString`); `time.Parse` inspects them byte by byte.
* The relational store is a list of rows together with a log of the statements
  that the repository sent to it.  What the database engine decides on its own
  (statement failure, generated id and timestamps, `NOW()`) is an explicit argument
  of each repository call.
-/

namespace Subscriptions

/-! ## Strings and errors -/

/-- Go `string`: a sequence of bytes, each given by its numeric value. -/
abbrev GoString := List Nat

/-- UTF-8 encoding of one code point, the encoding Go uses for string literals. -/
def utf8 (c : Nat) : List Nat :=
  if c < 0x80 then [c]
  else if c < 0x800 then [0xC0 + c / 64, 0x80 + c % 64]
  else if c < 0x10000 then [0xE0 + c / 4096, 0x80 + (c / 64) % 64, 0x80 + c % 64]
  else [0xF0 + c / 262144, 0x80 + (c / 4096) % 64, 0x80 + (c / 64) % 64, 0x80 + c % 64]

/-- The Go string written as the literal `s`. -/
def lit (s : String) : GoString := s.data.flatMap (fun c => utf8 c.toNat)

/-- Errors of the `pgx` driver: `pgx.ErrNoRows`, or any other failure of a statement
(connection loss, cancellation, constraint or range violation), identified by a code. -/
inductive PgxError where
  | ErrNoRows
  | failure (code : Nat)
  deriving DecidableEq, Repr

/-- Go `error` values built by the program. `errorf msg` is `fmt.Errorf(msg)`,
`wrap msg err` is `fmt.Errorf(msg + ": %w", err)`, `parseError` is the `*time.ParseError`
of `time.Parse` (with the reason it reports), `pgx` is an error of the driver. -/
inductive Error where
  | errorf (msg : String)
  | wrap (msg : String) (err : Error)
  | parseError (reason : String)
  | pgx (e : PgxError)
  deriving DecidableEq, Repr

/-- The innermost error of a `%w` chain. -/
def Error.root : Error → Error
  | Error.wrap _ err => err.root
  | e => e

/-- A storage error: the chain ends in a driver error. -/
def Error.isStorage (e : Error) : Bool :=
  match e.root with
  | Error.pgx _ => true
  | _ => false

/-- A not-found error: the chain ends in `pgx.ErrNoRows`. -/
def Error.isNotFound (e : Error) : Bool :=
  match e.root with
  | Error.pgx PgxError.ErrNoRows => true
  | _ => false

/-- A validation error: raised by the service itself on its input
(a required-field message, or a wrapped `time.Parse` failure). -/
def Error.isValidation (e : Error) : Bool :=
  match e.root with
  | Error.pgx _ => false
  | _ => true

/-! ## `time` -/

/-- A `time.Time`, given by its calendar fields in UTC. -/
structure Time where
  year : Int
  month : Int
  day : Int
  hour : Int
  minute : Int
  second : Int
  nanosecond : Int
  deriving DecidableEq, Repr

/-- Chronological order of instants (`Time.Compare` is lexicographic on the UTC fields). -/
def Time.key (t : Time) : List Int :=
  [t.year, t.month, t.day, t.hour, t.minute, t.second, t.nanosecond]

/-- Comparison `a <= b` of two instants. -/
def Time.le (a b : Time) : Bool := decide (a.key ≤ b.key)

/-- Go `time.norm`: carries `lo` into `hi` so that `0 <= lo < base`. -/
def norm (hi lo base : Int) : Int × Int :=
  let (hi, lo) :=
    if lo < 0 then
      let n := (-lo - 1) / base + 1
      (hi - n, lo + n * base)
    else (hi, lo)
  if lo ≥ base then
    let n := lo / base
    (hi + n, lo - n * base)
  else (hi, lo)

/-- Go `time.Date(year, month, day, hour, min, sec, nsec, time.UTC)`. The month is
normalised into the year as `time.Date` does; the only call site passes the in-range
constants `1, 0, 0, 0, 0` for the remaining fields, which normalisation leaves alone. -/
def Date (year month day hour min sec nsec : Int) : Time :=
  let m := month - 1
  let (year, m) := norm year m 12
  { year := year, month := m + 1, day := day, hour := hour, minute := min,
    second := sec, nanosecond := nsec }

/-- Go `time.isLeap`. -/
def isLeap (year : Int) : Bool :=
  year % 4 == 0 && (year % 100 != 0 || year % 400 == 0)

/-- Go `time.daysIn`. -/
def daysIn (m : Int) (year : Int) : Int :=
  if m == 2 then (if isLeap year then 29 else 28)
  else if m == 4 || m == 6 || m == 9 || m == 11 then 30
  else 31

/-- Go `time.isDigit(s, i)`: byte `i` exists and is an ASCII digit. -/
def isDigit (s : GoString) (i : Nat) : Bool :=
  match s.get? i with
  | none => false
  | some c => decide (48 ≤ c) && decide (c ≤ 57)

/-- Go `time.getnum(s, fixed)`: one or two leading digits (exactly two when `fixed`). -/
def getnum (s : GoString) (fixed : Bool) : Option (Int × GoString) :=
  if !isDigit s 0 then none
  else if !isDigit s 1 then
    if fixed then none
    else some (((s.getD 0 0 : Nat) : Int) - 48, s.drop 1)
  else some ((((s.getD 0 0 : Nat) : Int) - 48) * 10 + (((s.getD 1 0 : Nat) : Int) - 48), s.drop 2)

/-- Go `time.leadingInt`: the value of the leading digits and the rest of the string;
fails when the value overflows 63 bits. -/
def leadingInt : GoString → Nat → Option (Nat × GoString)
  | [], x => some (x, [])
  | c :: rest, x =>
    if c < 48 ∨ c > 57 then some (x, c :: rest)
    else if x > 2 ^ 63 / 10 then none
    else
      let x := x * 10 + c - 48
      if x > 2 ^ 63 then none else leadingInt rest x

/-- Go `time.atoi`: an optionally signed decimal number filling the whole string. -/
def atoi (s : GoString) : Option Int :=
  let neg := decide (s.head? = some 45)
  let s := if s.head? = some 45 ∨ s.head? = some 43 then s.drop 1 else s
  match leadingInt s 0 with
  | none => none
  | some (q, rem) =>
    if rem.length > 0 then none
    else some (if neg then -(q : Int) else (q : Int))

/-- Go `time.skip(value, pre)` for a literal `pre` without spaces: `value` must start
with `pre`, which is removed. -/
def skip : GoString → GoString → Option GoString
  | value, [] => some value
  | [], _ :: _ => none
  | v :: value, p :: pre => if v ≠ p then none else skip value pre

/-- Go `time.Parse("01-2006", value)`. The layout splits (`nextStdChunk`) into the chunk
`stdZeroMonth` with empty literal before it, the chunk `stdLongYear` after the literal
`"-"`, and the end of the layout, handled here in that order. Fields that the layout does
not set keep the defaults of `Parse` (day 1, midnight, UTC). -/
def timeParse (value : GoString) : Except Error Time :=
  -- chunk 1: literal "", stdZeroMonth
  match skip value [] with
  | none => Except.error (Error.parseError "bad value")
  | some value =>
  match getnum value true with
  | none => Except.error (Error.parseError "bad value")
  | some (month, value) =>
  if month ≤ 0 ∨ 12 < month then Except.error (Error.parseError "month out of range")
  else
  -- chunk 2: literal "-", stdLongYear
  match skip value [45] with
  | none => Except.error (Error.parseError "bad value")
  | some value =>
  if value.length < 4 ∨ !isDigit value 0 then Except.error (Error.parseError "bad value")
  else
  match atoi (value.take 4) with
  | none => Except.error (Error.parseError "bad value")
  | some year =>
  let value := value.drop 4
  -- end of layout
  if value.length ≠ 0 then Except.error (Error.parseError "extra text")
  else
  let day : Int := 1
  if day < 1 ∨ day > daysIn month year then Except.error (Error.parseError "day out of range")
  else Except.ok (Date year month day 0 0 0 0)

/-- Go `parseMonthYear` (service/subscription.go). -/
def parseMonthYear (s : GoString) : Except Error Time :=
  match timeParse s with
  | Except.error err => Except.error err
  | Except.ok t => Except.ok (Date t.year t.month 1 0 0 0 0)

/-- The texts `MM-YYYY`: two digits giving a month 01..12, the separator `-`, four digits. -/
def MonthYearText (s : GoString) (year month : Int) : Prop :=
  ∃ m1 m2 y1 y2 y3 y4 : Nat,
    m1 ≤ 9 ∧ m2 ≤ 9 ∧ y1 ≤ 9 ∧ y2 ≤ 9 ∧ y3 ≤ 9 ∧ y4 ≤ 9 ∧
    s = [48 + m1, 48 + m2, 45, 48 + y1, 48 + y2, 48 + y3, 48 + y4] ∧
    month = 10 * m1 + m2 ∧ 1 ≤ month ∧ month ≤ 12 ∧
    year = 1000 * y1 + 100 * y2 + 10 * y3 + y4

/-- The first day of a month at 00:00:00 UTC. -/
def firstOfMonth (year month : Int) : Time :=
  { year := year, month := month, day := 1, hour := 0, minute := 0, second := 0,
    nanosecond := 0 }

deriving instance DecidableEq for Except

/-! ## Records and the store -/

/-- Modelled from the spec: the declaration of `model.Subscription` (package
`internal/model`) is not among the sources. Its fields are the ones the repository
scans and the service assigns, typed as the data model describes them: text id, text
service name, integer price, text user id, start date, optional end date, and the two
timestamps of the storage layer. -/
structure Subscription where
  ID : GoString
  ServiceName : GoString
  Price : Int
  UserID : GoString
  StartDate : Time
  EndDate : Option Time
  CreatedAt : Time
  UpdatedAt : Time
  deriving DecidableEq, Repr

/-- The zero `time.Time` (January 1, year 1, 00:00:00 UTC). -/
def Time.zero : Time :=
  { year := 1, month := 1, day := 1, hour := 0, minute := 0, second := 0, nanosecond := 0 }

/-- Go `CreateSubscriptionDTO`; `EndDate` is a `*string`, `none` being `nil`. -/
structure CreateSubscriptionDTO where
  ServiceName : GoString
  Price : Int
  UserID : GoString
  StartDate : GoString
  EndDate : Option GoString
  deriving DecidableEq, Repr

/-- Conditions of the `WHERE` clauses the repository builds. -/
inductive Cond where
  | idEq (v : GoString)
  | userIDEq (v : GoString)
  | startDateGe (v : Time)
  | startDateLe (v : Time)
  | serviceNameEq (v : GoString)
  deriving DecidableEq, Repr

/-- Truth of one condition on a row. -/
def Cond.eval : Cond → Subscription → Bool
  | Cond.idEq v, r => decide (r.ID = v)
  | Cond.userIDEq v, r => decide (r.UserID = v)
  | Cond.startDateGe v, r => Time.le v r.StartDate
  | Cond.startDateLe v, r => Time.le r.StartDate v
  | Cond.serviceNameEq v, r => decide (r.ServiceName = v)

/-- Rows selected by a conjunction (`AND`) of conditions. -/
def sqlWhere (conds : List Cond) (rows : List Subscription) : List Subscription :=
  rows.filter (fun r => conds.all (fun c => c.eval r))

/-- SQL aggregate `SUM`: `NULL` over no rows, the total otherwise. -/
def sqlSum : List Int → Option Int
  | [] => none
  | x :: xs => some (x :: xs).sum

/-- SQL `COALESCE(v, d)`. -/
def coalesce (v : Option Int) (d : Int) : Int :=
  match v with
  | none => d
  | some x => x

/-- A statement sent to the store by a repository method. -/
inductive Call where
  | insert (sub : Subscription)
  | selectByID (id : GoString)
  | update (sub : Subscription)
  | delete (id : GoString)
  | selectList (userID : GoString) (serviceName : Option GoString)
  | selectSum (userID : GoString) (serviceName : Option GoString) (from_ to_ : Time)
  deriving DecidableEq, Repr

/-- The store: the rows of table `subscriptions` in storage order, and the statements
executed so far. -/
structure DB where
  rows : List Subscription
  log : List Call
  deriving DecidableEq, Repr

/-- The store before any request. -/
def DB.empty : DB := { rows := [], log := [] }

/-! ## Repository (`internal/repository/subscription.go`) -/

namespace SubscriptionRepo

/-- Go `SubscriptionRepo.CreateSubscription`. `ret` is what the engine answers to the
`INSERT ... RETURNING id, created_at, updated_at`: a failure, or the generated values,
which `Scan` writes onto `sub`. Returns the error, `sub` after the call, and the store. -/
def CreateSubscription (db : DB) (ret : Except PgxError (GoString × Time × Time))
    (sub : Subscription) : Option Error × Subscription × DB :=
  let log := db.log ++ [Call.insert sub]
  match ret with
  | Except.error e => (some (Error.pgx e), sub, { db with log := log })
  | Except.ok (id, createdAt, updatedAt) =>
    let sub := { sub with ID := id, CreatedAt := createdAt, UpdatedAt := updatedAt }
    (none, sub, { rows := db.rows ++ [sub], log := log })

/-- Go `SubscriptionRepo.GetSubscription`. `fault` is a failure of the statement, if any;
`QueryRow(...).Scan` yields the first selected row, or `pgx.ErrNoRows`. -/
def GetSubscription (db : DB) (fault : Option PgxError) (id : GoString) :
    Except Error Subscription × DB :=
  let db := { db with log := db.log ++ [Call.selectByID id] }
  let scan : Except PgxError Subscription :=
    match fault with
    | some e => Except.error e
    | none =>
      match (sqlWhere [Cond.idEq id] db.rows).head? with
      | none => Except.error PgxError.ErrNoRows
      | some row => Except.ok row
  match scan with
  | Except.error e => (Except.error (Error.wrap "Failed to get subscription" (Error.pgx e)), db)
  | Except.ok sub => (Except.ok sub, db)

/-- Go `SubscriptionRepo.UpdateSubscription`. `now` is the engine's `NOW()`. -/
def UpdateSubscription (db : DB) (fault : Option PgxError) (now : Time) (sub : Subscription) :
    Option Error × DB :=
  let log := db.log ++ [Call.update sub]
  match fault with
  | some e => (some (Error.wrap "Failed to update subscription" (Error.pgx e)), { db with log := log })
  | none =>
    let rows := db.rows.map (fun r =>
      if (Cond.idEq sub.ID).eval r then
        { r with
          ServiceName := sub.ServiceName, Price := sub.Price, UserID := sub.UserID,
          StartDate := sub.StartDate, EndDate := sub.EndDate, UpdatedAt := now }
      else r)
    (none, { rows := rows, log := log })

/-- Go `SubscriptionRepo.DeleteSubscription`. -/
def DeleteSubscription (db : DB) (fault : Option PgxError) (id : GoString) : Option Error × DB :=
  let log := db.log ++ [Call.delete id]
  match fault with
  | some e => (some (Error.wrap "Failed to delete subscription" (Error.pgx e)), { db with log := log })
  | none => (none, { rows := db.rows.filter (fun r => !(Cond.idEq id).eval r), log := log })

/-- Go `SubscriptionRepo.ListSubscriptions`. -/
def ListSubscriptions (db : DB) (fault : Option PgxError) (userID : GoString)
    (serviceName : Option GoString) : Except Error (List Subscription) × DB :=
  let query := [Cond.userIDEq userID]
  let query :=
    match serviceName with
    | some n => query ++ [Cond.serviceNameEq n]
    | none => query
  let db := { db with log := db.log ++ [Call.selectList userID serviceName] }
  match fault with
  | some e => (Except.error (Error.wrap "Failed to list subscriptions" (Error.pgx e)), db)
  | none => (Except.ok (sqlWhere query db.rows), db)

/-- Go `SubscriptionRepo.SumSubscriptions`; the result is the Go pair `(sum, err)`.
The statement is `SELECT COALESCE(SUM(price),0) ... WHERE user_id = $1 AND
start_date >= $2 AND start_date <= $3`, extended by `AND service_name = $4` when a
service name is given. A statement that the engine cannot answer is a `fault`. -/
def SumSubscriptions (db : DB) (fault : Option PgxError) (userID : GoString)
    (serviceName : Option GoString) (from_ to_ : Time) : (Int × Option Error) × DB :=
  let query := [Cond.userIDEq userID, Cond.startDateGe from_, Cond.startDateLe to_]
  let query :=
    match serviceName with
    | some n => query ++ [Cond.serviceNameEq n]
    | none => query
  let db := { db with log := db.log ++ [Call.selectSum userID serviceName from_ to_] }
  match fault with
  | some e => ((0, some (Error.wrap "Failed to sum subscriptions" (Error.pgx e))), db)
  | none =>
    let sum := coalesce (sqlSum ((sqlWhere query db.rows).map (fun r => r.Price))) 0
    ((sum, none), db)

end SubscriptionRepo

/-! ## Service (`internal/service/subscription.go`) -/

namespace SubscriptionService

/-- Go `SubscriptionService.CreateSubscription`. -/
def CreateSubscription (db : DB) (ret : Except PgxError (GoString × Time × Time))
    (dto : CreateSubscriptionDTO) : Except Error Subscription × DB :=
  if dto.ServiceName = [] then (Except.error (Error.errorf "service_name is required"), db)
  else if dto.Price ≤ 0 then (Except.error (Error.errorf "price must be > 0"), db)
  else if dto.UserID = [] then (Except.error (Error.errorf "user_id is required"), db)
  else if dto.StartDate = [] then (Except.error (Error.errorf "start_date is required"), db)
  else
  match parseMonthYear dto.StartDate with
  | Except.error err => (Except.error (Error.wrap "invalid start_date" err), db)
  | Except.ok startDate =>
  let endDate : Except Error (Option Time) :=
    match dto.EndDate with
    | none => Except.ok none
    | some e =>
      if e ≠ [] then
        match parseMonthYear e with
        | Except.error err => Except.error (Error.wrap "invalid end_date" err)
        | Except.ok ed => Except.ok (some ed)
      else Except.ok none
  match endDate with
  | Except.error err => (Except.error err, db)
  | Except.ok endDate =>
  let sub : Subscription :=
    { ID := [], ServiceName := dto.ServiceName, Price := dto.Price, UserID := dto.UserID,
      StartDate := startDate, EndDate := endDate, CreatedAt := Time.zero,
      UpdatedAt := Time.zero }
  match SubscriptionRepo.CreateSubscription db ret sub with
  | (some err, _, db) => (Except.error (Error.wrap "Failed to create subscription" err), db)
  | (none, sub, db) => (Except.ok sub, db)

/-- Go `SubscriptionService.GetSubscription`. -/
def GetSubscription (db : DB) (fault : Option PgxError) (id : GoString) :
    Except Error Subscription × DB :=
  if id = [] then (Except.error (Error.errorf "id is required"), db)
  else SubscriptionRepo.GetSubscription db fault id

/-- Go `SubscriptionService.UpdateSubscription`. `getFault` and `updFault` are the
failures, if any, of its two statements. -/
def UpdateSubscription (db : DB) (getFault updFault : Option PgxError) (now : Time)
    (id : GoString) (dto : CreateSubscriptionDTO) : Except Error Subscription × DB :=
  match SubscriptionRepo.GetSubscription db getFault id with
  | (Except.error err, db) => (Except.error err, db)
  | (Except.ok sub, db) =>
  let sub := if dto.ServiceName ≠ [] then { sub with ServiceName := dto.ServiceName } else sub
  let sub := if dto.Price > 0 then { sub with Price := dto.Price } else sub
  let sub := if dto.UserID ≠ [] then { sub with UserID := dto.UserID } else sub
  let sub : Except Error Subscription :=
    if dto.StartDate ≠ [] then
      match parseMonthYear dto.StartDate with
      | Except.error err => Except.error (Error.wrap "invalid start_date" err)
      | Except.ok startDate => Except.ok { sub with StartDate := startDate }
    else Except.ok sub
  match sub with
  | Except.error err => (Except.error err, db)
  | Except.ok sub =>
  let sub : Except Error Subscription :=
    match dto.EndDate with
    | none => Except.ok sub
    | some e =>
      if e ≠ [] then
        match parseMonthYear e with
        | Except.error err => Except.error (Error.wrap "invalid end_date" err)
        | Except.ok endDate => Except.ok { sub with EndDate := some endDate }
      else Except.ok sub
  match sub with
  | Except.error err => (Except.error err, db)
  | Except.ok sub =>
  match SubscriptionRepo.UpdateSubscription db updFault now sub with
  | (some err, db) => (Except.error err, db)
  | (none, db) => (Except.ok sub, db)

/-- Go `SubscriptionService.DeleteSubscription`. -/
def DeleteSubscription (db : DB) (fault : Option PgxError) (id : GoString) : Option Error × DB :=
  if id = [] then (some (Error.errorf "id is required"), db)
  else SubscriptionRepo.DeleteSubscription db fault id

/-- Go `SubscriptionService.ListSubscriptions`. -/
def ListSubscriptions (db : DB) (fault : Option PgxError) (userID : GoString)
    (serviceName : Option GoString) : Except Error (List Subscription) × DB :=
  if userID = [] then (Except.error (Error.errorf "user_id is required"), db)
  else SubscriptionRepo.ListSubscriptions db fault userID serviceName

/-- Go `SubscriptionService.SumSubscriptions`; the result is the Go pair `(sum, err)`. -/
def SumSubscriptions (db : DB) (fault : Option PgxError) (userID : GoString)
    (serviceName : Option GoString) (fromStr toStr : GoString) : (Int × Option Error) × DB :=
  if userID = [] then ((0, some (Error.errorf "user_id is required")), db)
  else
  match parseMonthYear fromStr with
  | Except.error err => ((0, some (Error.wrap "invalid from" err)), db)
  | Except.ok from_ =>
  match parseMonthYear toStr with
  | Except.error err => ((0, some (Error.wrap "invalid to" err)), db)
  | Except.ok to_ => SubscriptionRepo.SumSubscriptions db fault userID serviceName from_ to_

end SubscriptionService

/-! ## Read handler (`internals/handler/subscription.go`) -/

/-- Body of a JSON response: `gin.H{"error": err.Error()}` or the record. -/
inductive Body where
  | error (err : Error)
  | record (sub : Subscription)
  deriving DecidableEq, Repr

/-- What the handler writes with `c.JSON(status, body)`. -/
structure Response where
  status : Nat
  body : Body
  deriving DecidableEq, Repr

/-- Go `http.StatusOK`. -/
def StatusOK : Nat := 200
/-- Go `http.StatusBadRequest`. -/
def StatusBadRequest : Nat := 400
/-- Go `http.StatusNotFound`. -/
def StatusNotFound : Nat := 404

namespace SubscriptionHandler

/-- Go `SubscriptionHandler.GetSubscription`, `id` being the path parameter. -/
def GetSubscription (db : DB) (fault : Option PgxError) (id : GoString) : Response × DB :=
  match SubscriptionService.GetSubscription db fault id with
  | (Except.error err, db) => ({ status := StatusNotFound, body := Body.error err }, db)
  | (Except.ok sub, db) => ({ status := StatusOK, body := Body.record sub }, db)

end SubscriptionHandler

/-! ## Specification vocabulary -/

/-- An optional date text `e` denotes the optional date `t`: it is absent or empty and
`t` is absent, or it is well-formed and `t` is the date it names. -/
def EndDateText (e : Option GoString) (t : Option Time) : Prop :=
  (e = none ∧ t = none) ∨ (e = some [] ∧ t = none) ∨
    ∃ txt d, e = some txt ∧ parseMonthYear txt = Except.ok d ∧ t = some d

/-- A date normalised to the first day of a month at 00:00:00 UTC. -/
def Time.isMonthStart (t : Time) : Prop :=
  1 ≤ t.month ∧ t.month ≤ 12 ∧ t.day = 1 ∧ t.hour = 0 ∧ t.minute = 0 ∧ t.second = 0 ∧
    t.nanosecond = 0

/-- The invariants of the data model on one record: positive price, non-empty service
name and user id, start date set to a normalised month. -/
def Subscription.Valid (r : Subscription) : Prop :=
  0 < r.Price ∧ r.ServiceName ≠ [] ∧ r.UserID ≠ [] ∧ r.StartDate.isMonthStart

/-- The record that a statement asks the store to persist, if it is a write of a record. -/
def Call.persisted : Call → Option Subscription
  | Call.insert sub => some sub
  | Call.update sub => some sub
  | _ => none

/-- Every row of the store and every record handed to the store for persistence
satisfies the invariants of the data model. -/
def DB.Inv (db : DB) : Prop :=
  (∀ r ∈ db.rows, r.Valid) ∧ (∀ c ∈ db.log, ∀ sub, c.persisted = some sub → sub.Valid)

/-- Store states reachable from the empty store through the six service operations,
whatever the engine answers to each statement. -/
inductive Reachable : DB → Prop where
  | empty : Reachable DB.empty
  | create (db : DB) (ret : Except PgxError (GoString × Time × Time))
      (dto : CreateSubscriptionDTO) :
      Reachable db → Reachable (SubscriptionService.CreateSubscription db ret dto).2
  | get (db : DB) (fault : Option PgxError) (id : GoString) :
      Reachable db → Reachable (SubscriptionService.GetSubscription db fault id).2
  | update (db : DB) (getFault updFault : Option PgxError) (now : Time) (id : GoString)
      (dto : CreateSubscriptionDTO) :
      Reachable db →
        Reachable (SubscriptionService.UpdateSubscription db getFault updFault now id dto).2
  | delete (db : DB) (fault : Option PgxError) (id : GoString) :
      Reachable db → Reachable (SubscriptionService.DeleteSubscription db fault id).2
  | list (db : DB) (fault : Option PgxError) (userID : GoString)
      (serviceName : Option GoString) :
      Reachable db → Reachable (SubscriptionService.ListSubscriptions db fault userID serviceName).2
  | sum (db : DB) (fault : Option PgxError) (userID : GoString)
      (serviceName : Option GoString) (fromStr toStr : GoString) :
      Reachable db →
        Reachable (SubscriptionService.SumSubscriptions db fault userID serviceName fromStr toStr).2

/-- The rows a sum request is about, in the words of the specification: the user's rows
whose start date lies in `[from_, to_]`, of the given service when one is named. -/
def sumRows (rows : List Subscription) (userID : GoString) (serviceName : Option GoString)
    (from_ to_ : Time) : List Subscription :=
  rows.filter (fun r =>
    decide (r.UserID = userID) && (Time.le from_ r.StartDate && Time.le r.StartDate to_) &&
      (match serviceName with
       | none => true
       | some n => decide (r.ServiceName = n)))

/-- Total price of a list of rows. -/
def totalPrice (rows : List Subscription) : Int :=
  (rows.map (fun r => r.Price)).sum

/-- The stored record for `id`: the row a point lookup by `id` yields. -/
def DB.lookup (db : DB) (id : GoString) : Option Subscription :=
  db.rows.find? (fun r => decide (r.ID = id))

/-! ## Example data -/

/-- The create input of the end-to-end example. -/
def netflixDTO : CreateSubscriptionDTO :=
  { ServiceName := lit "Netflix", Price := 400, UserID := lit "u1",
    StartDate := lit "07-2025", EndDate := none }

/-- A timestamp of the storage layer used in examples. -/
def stamp : Time :=
  { year := 2025, month := 7, day := 14, hour := 9, minute := 30, second := 0, nanosecond := 0 }

/-- The record stored for `netflixDTO` when the engine generates id `"1"`. -/
def netflixRow : Subscription :=
  { ID := lit "1", ServiceName := lit "Netflix", Price := 400, UserID := lit "u1",
    StartDate := firstOfMonth 2025 7, EndDate := none, CreatedAt := stamp, UpdatedAt := stamp }

/-- A store holding `netflixRow` only. -/
def netflixDB : DB := { rows := [netflixRow], log := [] }

/-- The record an update describes, in the words of the specification: each of
service_name, price, user_id, start_date and end_date is taken from the input when the
input supplies a non-empty / positive value and from the stored record `r` otherwise;
id and timestamps are those of `r`. `start` is the date named by a non-empty start_date
text and `endDate` the optional date denoted by the end_date text. -/
def mergedRecord (r : Subscription) (dto : CreateSubscriptionDTO) (start : Time)
    (endDate : Option Time) : Subscription :=
  { ID := r.ID
    ServiceName := if dto.ServiceName = [] then r.ServiceName else dto.ServiceName
    Price := if 0 < dto.Price then dto.Price else r.Price
    UserID := if dto.UserID = [] then r.UserID else dto.UserID
    StartDate := if dto.StartDate = [] then r.StartDate else start
    EndDate := match endDate with
      | none => r.EndDate
      | some d => some d
    CreatedAt := r.CreatedAt
    UpdatedAt := r.UpdatedAt }

/-- An input that supplies a price only. -/
def priceOnly (p : Int) : CreateSubscriptionDTO :=
  { ServiceName := [], Price := p, UserID := [], StartDate := [], EndDate := none }

/-! ## Lemmas on `time.Parse` -/


theorem isDigit_cons_zero (c : Nat) (s : GoString) :
    isDigit (c :: s) 0 = (decide (48 ≤ c) && decide (c ≤ 57)) := by
  simp [isDigit]

theorem isDigit_cons_succ (c : Nat) (s : GoString) (i : Nat) :
    isDigit (c :: s) (i + 1) = isDigit s i := by
  simp [isDigit]

theorem getnum_fixed (s : GoString) (m : Int) (rest : GoString) :
    getnum s true = some (m, rest) ↔
      ∃ a b : Nat, s = a :: b :: rest ∧ 48 ≤ a ∧ a ≤ 57 ∧ 48 ≤ b ∧ b ≤ 57 ∧
        m = ((a : Int) - 48) * 10 + ((b : Int) - 48) := by
  rcases s with _ | ⟨a, _ | ⟨b, r⟩⟩
  · simp [getnum, isDigit]
  · simp [getnum, isDigit]
  · simp only [getnum, isDigit_cons_zero, isDigit_cons_succ]
    by_cases ha : 48 ≤ a ∧ a ≤ 57
    · by_cases hb : 48 ≤ b ∧ b ≤ 57
      · have hA : (decide (48 ≤ a) && decide (a ≤ 57)) = true := by simp [ha]
        have hB : (decide (48 ≤ b) && decide (b ≤ 57)) = true := by simp [hb]
        simp only [hA, hB, Bool.not_true, Bool.false_eq_true, if_false, List.getD_cons_zero,
          List.getD_cons_succ, List.drop_succ_cons, List.drop_zero, Option.some.injEq,
          Prod.mk.injEq]
        constructor
        · rintro ⟨h1, h2⟩
          exact ⟨a, b, by rw [h2], ha.1, ha.2, hb.1, hb.2, h1.symm⟩
        · rintro ⟨a1, b1, h0, -, -, -, -, h1⟩
          simp only [List.cons.injEq] at h0
          obtain ⟨rfl, rfl, rfl⟩ := h0
          exact ⟨h1.symm, rfl⟩
      · have hB : (decide (48 ≤ b) && decide (b ≤ 57)) = false := by
          simpa using fun h => by_contra fun h2 => hb ⟨h, by omega⟩
        have hA : (decide (48 ≤ a) && decide (a ≤ 57)) = true := by simp [ha]
        simp only [hA, hB, Bool.not_true, Bool.not_false, Bool.false_eq_true, if_false, if_true]
        constructor
        · intro h; cases h
        · rintro ⟨a1, b1, h0, -, -, h3, h4, -⟩
          simp only [List.cons.injEq] at h0
          obtain ⟨rfl, rfl, rfl⟩ := h0
          exact absurd ⟨h3, h4⟩ hb
    · have hA : (decide (48 ≤ a) && decide (a ≤ 57)) = false := by
        simpa using fun h => by_contra fun h2 => ha ⟨h, by omega⟩
      simp only [hA, Bool.not_false, if_true]
      constructor
      · intro h; cases h
      · rintro ⟨a1, b1, h0, h3, h4, -⟩
        simp only [List.cons.injEq] at h0
        obtain ⟨rfl, rfl, rfl⟩ := h0
        exact absurd ⟨h3, h4⟩ ha

theorem leadingInt_digit (c : Nat) (rest : GoString) (x : Nat)
    (hc : 48 ≤ c ∧ c ≤ 57) (hx : x < 100000) :
    leadingInt (c :: rest) x = leadingInt rest (x * 10 + (c - 48)) := by
  have h1 : ¬ (c < 48 ∨ c > 57) := by omega
  have h2 : ¬ (x > 2 ^ 63 / 10) := by norm_num; omega
  have h3 : ¬ (x * 10 + c - 48 > 2 ^ 63) := by norm_num; omega
  have h4 : x * 10 + c - 48 = x * 10 + (c - 48) := by omega
  rw [leadingInt, if_neg h1, if_neg h2]
  simp only []
  rw [if_neg h3, h4]

theorem leadingInt_nondigit (c : Nat) (rest : GoString) (x : Nat)
    (hc : ¬ (48 ≤ c ∧ c ≤ 57)) :
    leadingInt (c :: rest) x = some (x, c :: rest) := by
  have h1 : (c < 48 ∨ c > 57) := by omega
  rw [leadingInt, if_pos h1]

theorem atoi_four (a b c d : Nat) (ha : 48 ≤ a ∧ a ≤ 57) (y : Int) :
    atoi [a, b, c, d] = some y ↔
      (48 ≤ b ∧ b ≤ 57) ∧ (48 ≤ c ∧ c ≤ 57) ∧ (48 ≤ d ∧ d ≤ 57) ∧
        y = 1000 * ((a : Int) - 48) + 100 * ((b : Int) - 48) + 10 * ((c : Int) - 48)
              + ((d : Int) - 48) := by
  have e1 : ¬ ((some a : Option Nat) = some 45) := by simp; omega
  have e2 : ¬ ((some a : Option Nat) = some 43) := by simp; omega
  simp only [atoi, List.head?_cons, e1, e2, or_self, if_false, decide_False]
  rw [leadingInt_digit a _ 0 ha (by norm_num)]
  by_cases hb : 48 ≤ b ∧ b ≤ 57
  · rw [leadingInt_digit b _ _ hb (by omega)]
    by_cases hc : 48 ≤ c ∧ c ≤ 57
    · rw [leadingInt_digit c _ _ hc (by omega)]
      by_cases hd : 48 ≤ d ∧ d ≤ 57
      · rw [leadingInt_digit d _ _ hd (by omega)]
        simp [leadingInt, hb, hc, hd]
        constructor <;> intro h <;> omega
      · rw [leadingInt_nondigit d _ _ hd]
        simp
        intro _ _ _ _ h1 h2
        exact absurd ⟨h1, h2⟩ hd
    · rw [leadingInt_nondigit c _ _ hc]
      simp
      intro _ _ h1 h2
      exact absurd ⟨h1, h2⟩ hc
  · rw [leadingInt_nondigit b _ _ hb]
    simp
    intro h1 h2
    exact absurd ⟨h1, h2⟩ hb

theorem skip_nil (v : GoString) : skip v [] = some v := by
  cases v <;> rfl

theorem skip_dash (v r : GoString) : skip v [45] = some r ↔ v = 45 :: r := by
  rcases v with _ | ⟨c, v⟩
  · simp [skip]
  · by_cases hc : c = 45
    · subst hc; simp [skip]
    · simp [skip, hc]

theorem Date_inrange (y m d h mi s n : Int) (h1 : 1 ≤ m) (h2 : m ≤ 12) :
    Date y m d h mi s n =
      { year := y, month := m, day := d, hour := h, minute := mi, second := s,
        nanosecond := n } := by
  have a1 : ¬ (m - 1 < 0) := by omega
  have a2 : ¬ (m - 1 ≥ 12) := by omega
  simp [Date, norm, a1, a2]

theorem daysIn_ok (m y : Int) : ¬ ((1 : Int) < 1 ∨ 1 > daysIn m y) := by
  unfold daysIn
  split_ifs <;> omega

theorem timeParse_of_text (s : GoString) (year month : Int) (h : MonthYearText s year month) :
    timeParse s = Except.ok (firstOfMonth year month) := by
  obtain ⟨m1, m2, y1, y2, y3, y4, hm1, hm2, hy1, hy2, hy3, hy4, rfl, hm, hlo, hhi, hy⟩ := h
  have hg : getnum [48 + m1, 48 + m2, 45, 48 + y1, 48 + y2, 48 + y3, 48 + y4] true
      = some (month, [45, 48 + y1, 48 + y2, 48 + y3, 48 + y4]) := by
    rw [getnum_fixed]
    exact ⟨48 + m1, 48 + m2, rfl, by omega, by omega, by omega, by omega, by push_cast; omega⟩
  have hr : ¬ (month ≤ 0 ∨ 12 < month) := by omega
  have hs : skip [45, 48 + y1, 48 + y2, 48 + y3, 48 + y4] [45]
      = some [48 + y1, 48 + y2, 48 + y3, 48 + y4] := by
    rw [skip_dash]
  have hd : ¬ ([48 + y1, 48 + y2, 48 + y3, 48 + y4].length < 4 ∨
      (!isDigit [48 + y1, 48 + y2, 48 + y3, 48 + y4] 0) = true) := by
    simp [isDigit]; omega
  have ha : atoi (List.take 4 [48 + y1, 48 + y2, 48 + y3, 48 + y4]) = some year := by
    simp only [List.take_succ_cons, List.take_zero]
    rw [atoi_four _ _ _ _ (by omega)]
    refine ⟨by omega, by omega, by omega, ?_⟩
    push_cast; omega
  have hx : ¬ ((List.drop 4 [48 + y1, 48 + y2, 48 + y3, 48 + y4]).length ≠ 0) := by simp
  simp only [timeParse, skip_nil, hg, hr, hs, hd, ha, hx, if_false, daysIn_ok]
  rw [Date_inrange _ _ _ _ _ _ _ hlo hhi]
  rfl

theorem text_of_timeParse (s : GoString) (t : Time) (h : timeParse s = Except.ok t) :
    ∃ year month, MonthYearText s year month ∧ t = firstOfMonth year month := by
  unfold timeParse at h
  simp only [skip_nil] at h
  cases hg : getnum s true with
  | none => rw [hg] at h; cases h
  | some p =>
    obtain ⟨month, rest⟩ := p
    rw [hg] at h
    simp only at h
    by_cases hr : month ≤ 0 ∨ 12 < month
    · rw [if_pos hr] at h; cases h
    · rw [if_neg hr] at h
      cases hs : skip rest [45] with
      | none => rw [hs] at h; cases h
      | some v =>
        rw [hs] at h
        simp only at h
        by_cases hd : v.length < 4 ∨ (!isDigit v 0) = true
        · rw [if_pos hd] at h; cases h
        · rw [if_neg hd] at h
          rcases v with _ | ⟨c1, _ | ⟨c2, _ | ⟨c3, _ | ⟨c4, tl⟩⟩⟩⟩
          · simp at hd
          · simp at hd
          · simp at hd
          · simp at hd
          · simp only [List.take_succ_cons, List.take_zero, List.drop_succ_cons,
              List.drop_zero] at h
            have hc1 : 48 ≤ c1 ∧ c1 ≤ 57 := by
              simp [isDigit] at hd; exact hd
            cases ha : atoi [c1, c2, c3, c4] with
            | none => rw [ha] at h; cases h
            | some year =>
              rw [ha] at h
              simp only at h
              by_cases hx : tl.length ≠ 0
              · rw [if_pos hx] at h; cases h
              · rw [if_neg hx, if_neg (daysIn_ok _ _)] at h
                have htl : tl = [] := by
                  rcases tl with _ | ⟨x, tl⟩
                  · rfl
                  · simp at hx
                subst htl
                rw [getnum_fixed] at hg
                obtain ⟨a, b, rfl, ha1, ha2, hb1, hb2, hm⟩ := hg
                rw [skip_dash] at hs
                subst hs
                rw [atoi_four _ _ _ _ hc1] at ha
                obtain ⟨h2, h3, h4, hy⟩ := ha
                have hlo : 1 ≤ month := by omega
                have hhi : month ≤ 12 := by omega
                rw [Date_inrange _ _ _ _ _ _ _ hlo hhi] at h
                refine ⟨year, month, ⟨a - 48, b - 48, c1 - 48, c2 - 48, c3 - 48, c4 - 48,
                  by omega, by omega, by omega, by omega, by omega, by omega, ?_, by omega,
                  hlo, hhi, by omega⟩, ?_⟩
                · have e1 : 48 + (a - 48) = a := by omega
                  have e2 : 48 + (b - 48) = b := by omega
                  have e3 : 48 + (c1 - 48) = c1 := by omega
                  have e4 : 48 + (c2 - 48) = c2 := by omega
                  have e5 : 48 + (c3 - 48) = c3 := by omega
                  have e6 : 48 + (c4 - 48) = c4 := by omega
                  rw [e1, e2, e3, e4, e5, e6]
                · cases h; rfl

theorem firstOfMonth_spec (s : GoString) (t : Time) :
    parseMonthYear s = Except.ok t ↔
      ∃ year month, MonthYearText s year month ∧ t = firstOfMonth year month := by
  constructor
  · intro h
    unfold parseMonthYear at h
    cases hp : timeParse s with
    | error e => rw [hp] at h; cases h
    | ok u =>
      rw [hp] at h
      obtain ⟨year, month, htxt, rfl⟩ := text_of_timeParse s u hp
      refine ⟨year, month, htxt, ?_⟩
      obtain ⟨_, _, _, _, _, _, _, _, _, _, _, _, _, _, hlo, hhi, _⟩ := htxt
      simp only [firstOfMonth] at h
      rw [Date_inrange _ _ _ _ _ _ _ hlo hhi] at h
      cases h; rfl
  · rintro ⟨year, month, htxt, rfl⟩
    unfold parseMonthYear
    rw [timeParse_of_text s year month htxt]
    obtain ⟨_, _, _, _, _, _, _, _, _, _, _, _, _, _, hlo, hhi, _⟩ := htxt
    simp only [firstOfMonth]
    rw [Date_inrange _ _ _ _ _ _ _ hlo hhi]

/-! ## Lemmas on the service operations -/

theorem parseMonthYear_nil : parseMonthYear [] = Except.error (Error.parseError "bad value") := by
  rfl

theorem parse_ne_nil (s : GoString) (t : Time) (h : parseMonthYear s = Except.ok t) : s ≠ [] := by
  rintro rfl
  rw [parseMonthYear_nil] at h
  cases h

theorem parse_isMonthStart (s : GoString) (t : Time) (h : parseMonthYear s = Except.ok t) :
    t.isMonthStart := by
  obtain ⟨year, month, htxt, rfl⟩ := (firstOfMonth_spec s t).mp h
  obtain ⟨_, _, _, _, _, _, _, _, _, _, _, _, _, _, hlo, hhi, _⟩ := htxt
  exact ⟨hlo, hhi, rfl, rfl, rfl, rfl, rfl⟩

/-- The end date computed by `CreateSubscription` from the optional text. -/
theorem endDate_of_text (e : Option GoString) (t : Option Time) (h : EndDateText e t) :
    (match e with
      | none => (Except.ok none : Except Error (Option Time))
      | some e =>
        if e ≠ [] then
          match parseMonthYear e with
          | Except.error err => Except.error (Error.wrap "invalid end_date" err)
          | Except.ok ed => Except.ok (some ed)
        else Except.ok none) = Except.ok t := by
  rcases h with ⟨rfl, rfl⟩ | ⟨rfl, rfl⟩ | ⟨txt, d, rfl, hp, rfl⟩
  · rfl
  · rfl
  · have hne : txt ≠ [] := parse_ne_nil txt d hp
    simp only [hne, ne_eq, not_false_eq_true, if_true, hp]

theorem create_accepted (db : DB) (ret : Except PgxError (GoString × Time × Time))
    (dto : CreateSubscriptionDTO) (start : Time) (endDate : Option Time)
    (h1 : dto.ServiceName ≠ []) (h2 : 0 < dto.Price) (h3 : dto.UserID ≠ [])
    (h4 : parseMonthYear dto.StartDate = Except.ok start)
    (h5 : EndDateText dto.EndDate endDate) :
    SubscriptionService.CreateSubscription db ret dto =
      match SubscriptionRepo.CreateSubscription db ret
          { ID := [], ServiceName := dto.ServiceName, Price := dto.Price, UserID := dto.UserID,
            StartDate := start, EndDate := endDate, CreatedAt := Time.zero,
            UpdatedAt := Time.zero } with
      | (some err, _, db) => (Except.error (Error.wrap "Failed to create subscription" err), db)
      | (none, sub, db) => (Except.ok sub, db) := by
  have h2' : ¬ dto.Price ≤ 0 := by omega
  have h4' : dto.StartDate ≠ [] := parse_ne_nil _ _ h4
  unfold SubscriptionService.CreateSubscription
  rw [if_neg h1, if_neg h2', if_neg h3, if_neg h4', h4]
  simp only [endDate_of_text dto.EndDate endDate h5]

theorem head_filter_eq_find {α : Type} (p : α → Bool) (l : List α) :
    (l.filter p).head? = l.find? p := by
  induction l with
  | nil => rfl
  | cons a l ih =>
    by_cases h : p a = true
    · simp [List.filter_cons, List.find?_cons, h]
    · have h' : p a = false := by simpa using h
      simp [List.filter_cons, List.find?_cons, h', ih]

theorem repo_get_of_lookup (db : DB) (id : GoString) (r : Subscription)
    (h : db.lookup id = some r) :
    SubscriptionRepo.GetSubscription db none id =
      (Except.ok r, { db with log := db.log ++ [Call.selectByID id] }) := by
  have h' : (sqlWhere [Cond.idEq id] db.rows).head? = some r := by
    rw [← h]
    simp [sqlWhere, DB.lookup, Cond.eval, head_filter_eq_find]
  simp only [SubscriptionRepo.GetSubscription, h']

theorem lookup_found_id (db : DB) (id : GoString) (r : Subscription)
    (h : db.lookup id = some r) : r.ID = id := by
  have := List.find?_some h
  simpa using this

theorem update_eval (db : DB) (updFault : Option PgxError) (now : Time) (id : GoString)
    (dto : CreateSubscriptionDTO) (r : Subscription) (start : Time) (endDate : Option Time)
    (hr : db.lookup id = some r)
    (hs : dto.StartDate = [] ∨ parseMonthYear dto.StartDate = Except.ok start)
    (he : EndDateText dto.EndDate endDate) :
    SubscriptionService.UpdateSubscription db none updFault now id dto =
      match SubscriptionRepo.UpdateSubscription
          { db with log := db.log ++ [Call.selectByID id] } updFault now
          (mergedRecord r dto start endDate) with
      | (some err, db) => (Except.error err, db)
      | (none, db) => (Except.ok (mergedRecord r dto start endDate), db) := by
  unfold SubscriptionService.UpdateSubscription
  rw [repo_get_of_lookup db id r hr]
  simp only
  by_cases h0 : dto.StartDate = []
  · rcases he with ⟨he1, rfl⟩ | ⟨he1, rfl⟩ | ⟨txt, d, he1, hp, rfl⟩
    · by_cases h1 : dto.ServiceName = [] <;> by_cases h2 : 0 < dto.Price <;>
        by_cases h3 : dto.UserID = [] <;> simp [h0, h1, h2, h3, he1, mergedRecord]
    · by_cases h1 : dto.ServiceName = [] <;> by_cases h2 : 0 < dto.Price <;>
        by_cases h3 : dto.UserID = [] <;> simp [h0, h1, h2, h3, he1, mergedRecord]
    · have hne : txt ≠ [] := parse_ne_nil txt d hp
      by_cases h1 : dto.ServiceName = [] <;> by_cases h2 : 0 < dto.Price <;>
        by_cases h3 : dto.UserID = [] <;> simp [h0, h1, h2, h3, he1, hne, hp, mergedRecord]
  · have hs' : parseMonthYear dto.StartDate = Except.ok start := by
      rcases hs with hs | hs
      · exact absurd hs h0
      · exact hs
    rcases he with ⟨he1, rfl⟩ | ⟨he1, rfl⟩ | ⟨txt, d, he1, hp, rfl⟩
    · by_cases h1 : dto.ServiceName = [] <;> by_cases h2 : 0 < dto.Price <;>
        by_cases h3 : dto.UserID = [] <;> simp [h0, h1, h2, h3, he1, hs', mergedRecord]
    · by_cases h1 : dto.ServiceName = [] <;> by_cases h2 : 0 < dto.Price <;>
        by_cases h3 : dto.UserID = [] <;> simp [h0, h1, h2, h3, he1, hs', mergedRecord]
    · have hne : txt ≠ [] := parse_ne_nil txt d hp
      by_cases h1 : dto.ServiceName = [] <;> by_cases h2 : 0 < dto.Price <;>
        by_cases h3 : dto.UserID = [] <;>
          simp [h0, h1, h2, h3, he1, hne, hp, hs', mergedRecord]

theorem lookup_after_update (rows : List Subscription) (log : List Call) (sub : Subscription)
    (now : Time) (id : GoString) :
    DB.lookup
      { rows := rows.map (fun r =>
          if (Cond.idEq sub.ID).eval r then
            { r with
              ServiceName := sub.ServiceName, Price := sub.Price, UserID := sub.UserID,
              StartDate := sub.StartDate, EndDate := sub.EndDate, UpdatedAt := now }
          else r),
        log := log } id =
      (DB.lookup { rows := rows, log := log } id).map (fun r =>
          if (Cond.idEq sub.ID).eval r then
            { r with
              ServiceName := sub.ServiceName, Price := sub.Price, UserID := sub.UserID,
              StartDate := sub.StartDate, EndDate := sub.EndDate, UpdatedAt := now }
          else r) := by
  simp only [DB.lookup, List.find?_map]
  congr 2
  funext r
  simp only [Function.comp]
  split_ifs <;> rfl

theorem update_success (db : DB) (now : Time) (dto : CreateSubscriptionDTO)
    (r : Subscription) (start : Time) (endDate : Option Time)
    (hr : db.lookup r.ID = some r)
    (hs : dto.StartDate = [] ∨ parseMonthYear dto.StartDate = Except.ok start)
    (he : EndDateText dto.EndDate endDate) :
    (SubscriptionService.UpdateSubscription db none none now r.ID dto).1 =
        Except.ok (mergedRecord r dto start endDate) ∧
      (SubscriptionService.UpdateSubscription db none none now r.ID dto).2.log =
        db.log ++ [Call.selectByID r.ID, Call.update (mergedRecord r dto start endDate)] ∧
      (SubscriptionService.UpdateSubscription db none none now r.ID dto).2.lookup r.ID =
        some { mergedRecord r dto start endDate with UpdatedAt := now } ∧
      ∀ id, id ≠ r.ID →
        (SubscriptionService.UpdateSubscription db none none now r.ID dto).2.lookup id =
          db.lookup id := by
  rw [update_eval db none now r.ID dto r start endDate hr hs he]
  simp only [SubscriptionRepo.UpdateSubscription]
  refine ⟨trivial, by simp, ?_, ?_⟩
  · rw [lookup_after_update]
    have : DB.lookup { rows := db.rows, log := db.log ++ [Call.selectByID r.ID] ++
        [Call.update (mergedRecord r dto start endDate)] } r.ID = some r := hr
    rw [this]
    simp [Cond.eval, mergedRecord]
  · intro id hid
    rw [lookup_after_update]
    have e : DB.lookup { rows := db.rows, log := db.log ++ [Call.selectByID r.ID] ++
        [Call.update (mergedRecord r dto start endDate)] } id = db.lookup id := rfl
    rw [e]
    cases hl : db.lookup id with
    | none => rfl
    | some row =>
      have hrow : row.ID = id := lookup_found_id db id row hl
      have hne : ¬ row.ID = (mergedRecord r dto start endDate).ID := by
        rw [hrow]; exact hid
      simp [Cond.eval, hne]

theorem repo_get_log (db : DB) (fault : Option PgxError) (id : GoString) :
    (SubscriptionRepo.GetSubscription db fault id).2 =
      { db with log := db.log ++ [Call.selectByID id] } := by
  unfold SubscriptionRepo.GetSubscription
  simp only
  split <;> rfl

theorem start_text_cases (s : GoString) :
    (∃ start, s = [] ∨ parseMonthYear s = Except.ok start) ∨
      (s ≠ [] ∧ ∃ err, parseMonthYear s = Except.error err) := by
  by_cases h0 : s = []
  · exact Or.inl ⟨Time.zero, Or.inl h0⟩
  · cases hp : parseMonthYear s with
    | error err => exact Or.inr ⟨h0, err, rfl⟩
    | ok t => exact Or.inl ⟨t, Or.inr rfl⟩

theorem end_text_cases (e : Option GoString) :
    (∃ t, EndDateText e t) ∨ (∃ txt err, e = some txt ∧ txt ≠ [] ∧
      parseMonthYear txt = Except.error err) := by
  cases e with
  | none => exact Or.inl ⟨none, Or.inl ⟨rfl, rfl⟩⟩
  | some txt =>
    by_cases h0 : txt = []
    · subst h0; exact Or.inl ⟨none, Or.inr (Or.inl ⟨rfl, rfl⟩)⟩
    · cases hp : parseMonthYear txt with
      | error err => exact Or.inr ⟨txt, err, rfl, h0, hp⟩
      | ok d => exact Or.inl ⟨some d, Or.inr (Or.inr ⟨txt, d, rfl, hp, rfl⟩)⟩

/-- What `UpdateSubscription` does once the lookup has found `r`, when the start_date
text is malformed: a validation error after the read, without any write. -/
theorem update_bad_start (db : DB) (updFault : Option PgxError) (now : Time) (id : GoString)
    (dto : CreateSubscriptionDTO) (r : Subscription) (err : Error)
    (hr : db.lookup id = some r) (h0 : dto.StartDate ≠ [])
    (hp : parseMonthYear dto.StartDate = Except.error err) :
    SubscriptionService.UpdateSubscription db none updFault now id dto =
      (Except.error (Error.wrap "invalid start_date" err),
        { db with log := db.log ++ [Call.selectByID id] }) := by
  unfold SubscriptionService.UpdateSubscription
  rw [repo_get_of_lookup db id r hr]
  simp [h0, hp]

/-- What `UpdateSubscription` does once the lookup has found `r`, when the end_date text
is malformed and the start_date text is not. -/
theorem update_bad_end (db : DB) (updFault : Option PgxError) (now : Time) (id : GoString)
    (dto : CreateSubscriptionDTO) (r : Subscription) (start : Time) (txt : GoString)
    (err : Error) (hr : db.lookup id = some r)
    (hs : dto.StartDate = [] ∨ parseMonthYear dto.StartDate = Except.ok start)
    (he : dto.EndDate = some txt) (h0 : txt ≠ [])
    (hp : parseMonthYear txt = Except.error err) :
    SubscriptionService.UpdateSubscription db none updFault now id dto =
      (Except.error (Error.wrap "invalid end_date" err),
        { db with log := db.log ++ [Call.selectByID id] }) := by
  unfold SubscriptionService.UpdateSubscription
  rw [repo_get_of_lookup db id r hr]
  by_cases hs0 : dto.StartDate = []
  · simp [hs0, he, h0, hp]
  · have hs' : parseMonthYear dto.StartDate = Except.ok start := by
      rcases hs with hs | hs
      · exact absurd hs hs0
      · exact hs
    simp [hs0, hs', he, h0, hp]

/-- A failed lookup ends `UpdateSubscription` with the storage error of the read. -/
theorem update_no_row (db : DB) (getFault updFault : Option PgxError) (now : Time)
    (id : GoString) (dto : CreateSubscriptionDTO)
    (h : getFault ≠ none ∨ db.lookup id = none) :
    ∃ pe, SubscriptionService.UpdateSubscription db getFault updFault now id dto =
      (Except.error (Error.wrap "Failed to get subscription" (Error.pgx pe)),
        { db with log := db.log ++ [Call.selectByID id] }) := by
  have e : (sqlWhere [Cond.idEq id] db.rows).head? = db.lookup id := by
    simp [sqlWhere, DB.lookup, Cond.eval, head_filter_eq_find]
  unfold SubscriptionService.UpdateSubscription
  cases getFault with
  | some pe => exact ⟨pe, by simp [SubscriptionRepo.GetSubscription]⟩
  | none =>
    rcases h with h | h
    · exact absurd rfl h
    · rw [h] at e
      exact ⟨PgxError.ErrNoRows, by simp [SubscriptionRepo.GetSubscription, e]⟩

/-- A successful `UpdateSubscription` found a stored record, accepted both date texts
and returns the merged record after a successful write. -/
theorem update_ok_inv (db : DB) (getFault updFault : Option PgxError) (now : Time)
    (id : GoString) (dto : CreateSubscriptionDTO) (sub : Subscription)
    (h : (SubscriptionService.UpdateSubscription db getFault updFault now id dto).1 =
      Except.ok sub) :
    getFault = none ∧ updFault = none ∧ ∃ r start endDate, db.lookup id = some r ∧
      (dto.StartDate = [] ∨ parseMonthYear dto.StartDate = Except.ok start) ∧
      EndDateText dto.EndDate endDate ∧ sub = mergedRecord r dto start endDate := by
  by_cases hg : getFault ≠ none ∨ db.lookup id = none
  · obtain ⟨pe, hpe⟩ := update_no_row db getFault updFault now id dto hg
    rw [hpe] at h
    cases h
  · have hg1 : getFault = none := by
      by_contra hc; exact hg (Or.inl hc)
    subst hg1
    cases hl : db.lookup id with
    | none => exact absurd (Or.inr hl) hg
    | some r =>
      rcases start_text_cases dto.StartDate with ⟨start, hs⟩ | ⟨h0, err, hp⟩
      · rcases end_text_cases dto.EndDate with ⟨endDate, he⟩ | ⟨txt, err, he, h0, hp⟩
        · rw [update_eval db updFault now id dto r start endDate hl hs he] at h
          cases updFault with
          | some pe => simp [SubscriptionRepo.UpdateSubscription] at h
          | none =>
            simp only [SubscriptionRepo.UpdateSubscription, Except.ok.injEq] at h
            exact ⟨rfl, rfl, r, start, endDate, rfl, hs, he, h.symm⟩
        · rw [update_bad_end db updFault now id dto r start txt err hl hs he h0 hp] at h
          cases h
      · rw [update_bad_start db updFault now id dto r err hl h0 hp] at h
        cases h

theorem coalesce_sqlSum (l : List Int) : coalesce (sqlSum l) 0 = l.sum := by
  cases l with
  | nil => rfl
  | cons x xs => rfl

theorem sqlWhere_sum_query (rows : List Subscription) (userID : GoString)
    (serviceName : Option GoString) (from_ to_ : Time) :
    sqlWhere
      (match serviceName with
        | some n => [Cond.userIDEq userID, Cond.startDateGe from_, Cond.startDateLe to_] ++
            [Cond.serviceNameEq n]
        | none => [Cond.userIDEq userID, Cond.startDateGe from_, Cond.startDateLe to_]) rows =
      sumRows rows userID serviceName from_ to_ := by
  unfold sqlWhere sumRows
  congr 1
  funext r
  cases serviceName with
  | none => simp [Cond.eval, Bool.and_assoc]
  | some n => simp [Cond.eval, Bool.and_assoc]

theorem repo_sum_eval (db : DB) (userID : GoString) (serviceName : Option GoString)
    (from_ to_ : Time) :
    SubscriptionRepo.SumSubscriptions db none userID serviceName from_ to_ =
      ((totalPrice (sumRows db.rows userID serviceName from_ to_), none),
        { db with log := db.log ++ [Call.selectSum userID serviceName from_ to_] }) := by
  unfold SubscriptionRepo.SumSubscriptions
  simp only
  rw [sqlWhere_sum_query, coalesce_sqlSum]
  rfl

theorem timeParse_error (s : GoString) (err : Error) (h : timeParse s = Except.error err) :
    ∃ reason, err = Error.parseError reason := by
  unfold timeParse at h
  simp only [skip_nil] at h
  cases hg : getnum s true with
  | none => rw [hg] at h; cases h; exact ⟨_, rfl⟩
  | some p =>
    obtain ⟨month, rest⟩ := p
    rw [hg] at h
    simp only at h
    by_cases hr : month ≤ 0 ∨ 12 < month
    · rw [if_pos hr] at h; cases h; exact ⟨_, rfl⟩
    · rw [if_neg hr] at h
      cases hs : skip rest [45] with
      | none => rw [hs] at h; cases h; exact ⟨_, rfl⟩
      | some v =>
        rw [hs] at h
        simp only at h
        by_cases hd : v.length < 4 ∨ (!isDigit v 0) = true
        · rw [if_pos hd] at h; cases h; exact ⟨_, rfl⟩
        · rw [if_neg hd] at h
          cases ha : atoi (List.take 4 v) with
          | none => rw [ha] at h; cases h; exact ⟨_, rfl⟩
          | some year =>
            rw [ha] at h
            simp only at h
            by_cases hx : (List.drop 4 v).length ≠ 0
            · rw [if_pos hx] at h; cases h; exact ⟨_, rfl⟩
            · rw [if_neg hx, if_neg (daysIn_ok _ _)] at h
              cases h

theorem parseMonthYear_error (s : GoString) (err : Error)
    (h : parseMonthYear s = Except.error err) : ∃ reason, err = Error.parseError reason := by
  unfold parseMonthYear at h
  cases hp : timeParse s with
  | error e =>
    rw [hp] at h
    cases h
    exact timeParse_error s _ hp
  | ok t =>
    rw [hp] at h
    cases h

/-- The outcomes of `CreateSubscription`: a validation error that leaves the store as
it is, or the hand-over of the record built from the input to the repository. -/
theorem create_cases (db : DB) (ret : Except PgxError (GoString × Time × Time))
    (dto : CreateSubscriptionDTO) :
    (∃ e, SubscriptionService.CreateSubscription db ret dto = (Except.error e, db) ∧
      e.isValidation = true) ∨
    (∃ start endDate, dto.ServiceName ≠ [] ∧ 0 < dto.Price ∧ dto.UserID ≠ [] ∧
      parseMonthYear dto.StartDate = Except.ok start ∧ EndDateText dto.EndDate endDate) := by
  by_cases h1 : dto.ServiceName = []
  · exact Or.inl ⟨Error.errorf "service_name is required",
      by simp [SubscriptionService.CreateSubscription, h1], rfl⟩
  by_cases h2 : dto.Price ≤ 0
  · exact Or.inl ⟨Error.errorf "price must be > 0",
      by simp [SubscriptionService.CreateSubscription, h1, h2], rfl⟩
  by_cases h3 : dto.UserID = []
  · exact Or.inl ⟨Error.errorf "user_id is required",
      by simp [SubscriptionService.CreateSubscription, h1, h2, h3], rfl⟩
  by_cases h4 : dto.StartDate = []
  · exact Or.inl ⟨Error.errorf "start_date is required",
      by simp [SubscriptionService.CreateSubscription, h1, h2, h3, h4], rfl⟩
  cases hp : parseMonthYear dto.StartDate with
  | error err =>
    obtain ⟨reason, rfl⟩ := parseMonthYear_error _ _ hp
    exact Or.inl ⟨Error.wrap "invalid start_date" (Error.parseError reason),
      by simp [SubscriptionService.CreateSubscription, h1, h2, h3, h4, hp], rfl⟩
  | ok start =>
    rcases end_text_cases dto.EndDate with ⟨endDate, he⟩ | ⟨txt, err, he, h0, hpe⟩
    · exact Or.inr ⟨start, endDate, h1, by omega, h3, rfl, he⟩
    · obtain ⟨reason, rfl⟩ := parseMonthYear_error _ _ hpe
      exact Or.inl ⟨Error.wrap "invalid end_date" (Error.parseError reason),
        by simp [SubscriptionService.CreateSubscription, h1, h2, h3, h4, hp, he, h0, hpe], rfl⟩

/-- The outcomes of `UpdateSubscription`: the storage error of a failed read, a validation
error for a malformed date text after the read, or the hand-over of the merged record to
the repository update. -/
theorem update_cases (db : DB) (getFault updFault : Option PgxError) (now : Time)
    (id : GoString) (dto : CreateSubscriptionDTO) :
    (∃ pe, SubscriptionService.UpdateSubscription db getFault updFault now id dto =
      (Except.error (Error.wrap "Failed to get subscription" (Error.pgx pe)),
        { db with log := db.log ++ [Call.selectByID id] })) ∨
    (∃ e, SubscriptionService.UpdateSubscription db getFault updFault now id dto =
      (Except.error e, { db with log := db.log ++ [Call.selectByID id] }) ∧
      e.isValidation = true ∧ getFault = none ∧ ∃ r, db.lookup id = some r) ∨
    (∃ r start endDate, getFault = none ∧ db.lookup id = some r ∧
      (dto.StartDate = [] ∨ parseMonthYear dto.StartDate = Except.ok start) ∧
      EndDateText dto.EndDate endDate ∧
      SubscriptionService.UpdateSubscription db getFault updFault now id dto =
        match SubscriptionRepo.UpdateSubscription
            { db with log := db.log ++ [Call.selectByID id] } updFault now
            (mergedRecord r dto start endDate) with
        | (some err, db) => (Except.error err, db)
        | (none, db) => (Except.ok (mergedRecord r dto start endDate), db)) := by
  by_cases hg : getFault ≠ none ∨ db.lookup id = none
  · exact Or.inl (update_no_row db getFault updFault now id dto hg)
  · have hg1 : getFault = none := by
      by_contra hc; exact hg (Or.inl hc)
    subst hg1
    cases hl : db.lookup id with
    | none => exact absurd (Or.inr hl) hg
    | some r =>
      rcases start_text_cases dto.StartDate with ⟨start, hs⟩ | ⟨h0, err, hp⟩
      · rcases end_text_cases dto.EndDate with ⟨endDate, he⟩ | ⟨txt, err, he, h0, hp⟩
        · exact Or.inr (Or.inr ⟨r, start, endDate, rfl, rfl, hs, he,
            update_eval db updFault now id dto r start endDate hl hs he⟩)
        · obtain ⟨reason, rfl⟩ := parseMonthYear_error _ _ hp
          exact Or.inr (Or.inl ⟨_,
            update_bad_end db updFault now id dto r start txt _ hl hs he h0 hp, rfl, rfl,
            r, rfl⟩)
      · obtain ⟨reason, rfl⟩ := parseMonthYear_error _ _ hp
        exact Or.inr (Or.inl ⟨_, update_bad_start db updFault now id dto r _ hl h0 hp, rfl,
          rfl, r, rfl⟩)

theorem inv_log_append (db : DB) (c : Call) (h : db.Inv)
    (hc : ∀ sub, c.persisted = some sub → sub.Valid) :
    DB.Inv { db with log := db.log ++ [c] } := by
  refine ⟨h.1, ?_⟩
  intro c1 hc1 sub hsub
  rcases List.mem_append.mp hc1 with hmem | hmem
  · exact h.2 c1 hmem sub hsub
  · rw [List.mem_singleton] at hmem
    subst hmem
    exact hc sub hsub

theorem mergedRecord_valid (r : Subscription) (dto : CreateSubscriptionDTO) (start : Time)
    (endDate : Option Time) (hr : r.Valid)
    (hs : dto.StartDate = [] ∨ parseMonthYear dto.StartDate = Except.ok start) :
    (mergedRecord r dto start endDate).Valid := by
  obtain ⟨h1, h2, h3, h4⟩ := hr
  refine ⟨?_, ?_, ?_, ?_⟩
  · simp only [mergedRecord]
    split_ifs with h
    · exact h
    · exact h1
  · simp only [mergedRecord]
    split_ifs with h
    · exact h2
    · exact h
  · simp only [mergedRecord]
    split_ifs with h
    · exact h3
    · exact h
  · simp only [mergedRecord]
    split_ifs with h
    · exact h4
    · rcases hs with hs | hs
      · exact absurd hs h
      · exact parse_isMonthStart _ _ hs

theorem lookup_mem (db : DB) (id : GoString) (r : Subscription) (h : db.lookup id = some r) :
    r ∈ db.rows :=
  List.mem_of_find?_eq_some h

theorem create_inv (db : DB) (ret : Except PgxError (GoString × Time × Time))
    (dto : CreateSubscriptionDTO) (h : db.Inv) :
    (SubscriptionService.CreateSubscription db ret dto).2.Inv := by
  rcases create_cases db ret dto with ⟨e, he, -⟩ | ⟨start, endDate, h1, h2, h3, h4, h5⟩
  · rw [he]; exact h
  · rw [create_accepted db ret dto start endDate h1 h2 h3 h4 h5]
    have hv : ∀ (id : GoString) (c u : Time), Subscription.Valid
        { ID := id, ServiceName := dto.ServiceName, Price := dto.Price, UserID := dto.UserID,
          StartDate := start, EndDate := endDate, CreatedAt := c, UpdatedAt := u } :=
      fun _ _ _ => ⟨h2, h1, h3, parse_isMonthStart _ _ h4⟩
    rcases ret with pe | ⟨id, createdAt, updatedAt⟩
    · exact inv_log_append db _ h (by
        intro sub hsub
        simp only [Call.persisted, Option.some.injEq] at hsub
        subst hsub
        exact hv _ _ _)
    · simp only [SubscriptionRepo.CreateSubscription]
      refine ⟨?_, ?_⟩
      · intro r hr
        rcases List.mem_append.mp hr with hmem | hmem
        · exact h.1 r hmem
        · rw [List.mem_singleton] at hmem
          subst hmem
          exact hv _ _ _
      · intro c1 hc1 sub hsub
        rcases List.mem_append.mp hc1 with hmem | hmem
        · exact h.2 c1 hmem sub hsub
        · rw [List.mem_singleton] at hmem
          subst hmem
          simp only [Call.persisted, Option.some.injEq] at hsub
          subst hsub
          exact hv _ _ _

theorem update_inv (db : DB) (getFault updFault : Option PgxError) (now : Time)
    (id : GoString) (dto : CreateSubscriptionDTO) (h : db.Inv) :
    (SubscriptionService.UpdateSubscription db getFault updFault now id dto).2.Inv := by
  have hsel : DB.Inv { db with log := db.log ++ [Call.selectByID id] } :=
    inv_log_append db _ h (by intro sub hsub; cases hsub)
  rcases update_cases db getFault updFault now id dto with
    ⟨pe, he⟩ | ⟨e, he, -⟩ | ⟨r, start, endDate, -, hl, hs, hend, he⟩
  · rw [he]; exact hsel
  · rw [he]; exact hsel
  · rw [he]
    have hv : (mergedRecord r dto start endDate).Valid :=
      mergedRecord_valid r dto start endDate (h.1 r (lookup_mem db id r hl)) hs
    have hp : ∀ sub, (Call.update (mergedRecord r dto start endDate)).persisted = some sub →
        sub.Valid := by
      intro sub hsub
      simp only [Call.persisted, Option.some.injEq] at hsub
      subst hsub
      exact hv
    cases updFault with
    | some pe => exact inv_log_append _ _ hsel hp
    | none =>
      simp only [SubscriptionRepo.UpdateSubscription]
      refine ⟨?_, (inv_log_append _ _ hsel hp).2⟩
      intro row hrow
      simp only [List.mem_map] at hrow
      obtain ⟨r0, hr0, rfl⟩ := hrow
      have hr0v : r0.Valid := h.1 r0 hr0
      split_ifs
      · exact ⟨hv.1, hv.2.1, hv.2.2.1, hv.2.2.2⟩
      · exact hr0v

theorem delete_inv (db : DB) (fault : Option PgxError) (id : GoString) (h : db.Inv) :
    (SubscriptionService.DeleteSubscription db fault id).2.Inv := by
  unfold SubscriptionService.DeleteSubscription
  split_ifs
  · exact h
  · have hlog := inv_log_append db (Call.delete id) h (by intro sub hsub; cases hsub)
    cases fault with
    | some pe => exact hlog
    | none =>
      simp only [SubscriptionRepo.DeleteSubscription]
      exact ⟨fun r hr => h.1 r (List.mem_of_mem_filter hr), hlog.2⟩

theorem get_inv (db : DB) (fault : Option PgxError) (id : GoString) (h : db.Inv) :
    (SubscriptionService.GetSubscription db fault id).2.Inv := by
  unfold SubscriptionService.GetSubscription
  split_ifs
  · exact h
  · rw [repo_get_log]
    exact inv_log_append db _ h (by intro sub hsub; cases hsub)

theorem list_inv (db : DB) (fault : Option PgxError) (userID : GoString)
    (serviceName : Option GoString) (h : db.Inv) :
    (SubscriptionService.ListSubscriptions db fault userID serviceName).2.Inv := by
  unfold SubscriptionService.ListSubscriptions
  split_ifs
  · exact h
  · have hlog := inv_log_append db (Call.selectList userID serviceName) h
      (by intro sub hsub; cases hsub)
    cases fault <;> exact hlog

theorem repo_sum_db (db : DB) (fault : Option PgxError) (userID : GoString)
    (serviceName : Option GoString) (from_ to_ : Time) :
    (SubscriptionRepo.SumSubscriptions db fault userID serviceName from_ to_).2 =
      { db with log := db.log ++ [Call.selectSum userID serviceName from_ to_] } := by
  cases fault <;> rfl

theorem sum_inv (db : DB) (fault : Option PgxError) (userID : GoString)
    (serviceName : Option GoString) (fromStr toStr : GoString) (h : db.Inv) :
    (SubscriptionService.SumSubscriptions db fault userID serviceName fromStr toStr).2.Inv := by
  unfold SubscriptionService.SumSubscriptions
  split_ifs
  · exact h
  · cases parseMonthYear fromStr with
    | error e => exact h
    | ok from_ =>
      cases parseMonthYear toStr with
      | error e => exact h
      | ok to_ =>
        simp only
        rw [repo_sum_db]
        exact inv_log_append db _ h (by intro sub hsub; cases hsub)

theorem reachable_inv (db : DB) (h : Reachable db) : db.Inv := by
  induction h with
  | empty => exact ⟨fun r hr => (by cases hr), fun c hc => (by cases hc)⟩
  | create db ret dto _ ih => exact create_inv db ret dto ih
  | get db fault id _ ih => exact get_inv db fault id ih
  | update db gf uf now id dto _ ih => exact update_inv db gf uf now id dto ih
  | delete db fault id _ ih => exact delete_inv db fault id ih
  | list db fault userID sn _ ih => exact list_inv db fault userID sn ih
  | sum db fault userID sn f t _ ih => exact sum_inv db fault userID sn f t ih

theorem totalPrice_nonneg (l : List Subscription) (h : ∀ r ∈ l, 0 ≤ r.Price) :
    0 ≤ totalPrice l := by
  induction l with
  | nil => simp [totalPrice]
  | cons a l ih =>
    have ha : 0 ≤ a.Price := h a (List.mem_cons_self a l)
    have hl : 0 ≤ totalPrice l := ih (fun r hr => h r (List.mem_cons_of_mem a hr))
    simp only [totalPrice, List.map_cons, List.sum_cons] at hl ⊢
    omega

theorem totalPrice_filter_le (l : List Subscription) (q : Subscription → Bool)
    (h : ∀ r ∈ l, 0 ≤ r.Price) : totalPrice (l.filter q) ≤ totalPrice l := by
  induction l with
  | nil => simp [totalPrice]
  | cons a l ih =>
    have ha : 0 ≤ a.Price := h a (List.mem_cons_self a l)
    have hl : totalPrice (l.filter q) ≤ totalPrice l :=
      ih (fun r hr => h r (List.mem_cons_of_mem a hr))
    by_cases hq : q a = true
    · simp only [List.filter_cons, hq, if_true, totalPrice, List.map_cons, List.sum_cons]
        at hl ⊢
      omega
    · simp only [List.filter_cons, hq, if_false, totalPrice, List.map_cons, List.sum_cons]
        at hl ⊢
      simp only [Bool.false_eq_true, if_false]
      omega

theorem sumRows_named (rows : List Subscription) (userID n : GoString) (from_ to_ : Time) :
    sumRows rows userID (some n) from_ to_ =
      (sumRows rows userID none from_ to_).filter (fun r => decide (r.ServiceName = n)) := by
  simp [sumRows, List.filter_filter, Bool.and_comm]

theorem sumRows_price_nonneg (db : DB) (h : db.Inv) (userID : GoString)
    (serviceName : Option GoString) (from_ to_ : Time) :
    ∀ r ∈ sumRows db.rows userID serviceName from_ to_, 0 ≤ r.Price := by
  intro r hr
  have hmem : r ∈ db.rows := List.mem_of_mem_filter hr
  exact le_of_lt (h.1 r hmem).1

theorem service_sum_eval (db : DB) (fault : Option PgxError) (userID : GoString)
    (serviceName : Option GoString) (fromStr toStr : GoString) (from_ to_ : Time)
    (hu : userID ≠ []) (hf : parseMonthYear fromStr = Except.ok from_)
    (ht : parseMonthYear toStr = Except.ok to_) :
    SubscriptionService.SumSubscriptions db fault userID serviceName fromStr toStr =
      SubscriptionRepo.SumSubscriptions db fault userID serviceName from_ to_ := by
  simp [SubscriptionService.SumSubscriptions, hu, hf, ht]

theorem service_sum_rejected (db : DB) (fault : Option PgxError) (userID : GoString)
    (serviceName : Option GoString) (fromStr toStr : GoString)
    (h : userID = [] ∨ (∃ err, parseMonthYear fromStr = Except.error err) ∨
      (∃ err, parseMonthYear toStr = Except.error err)) :
    ∃ e, SubscriptionService.SumSubscriptions db fault userID serviceName fromStr toStr =
      ((0, some e), db) ∧ e.isValidation = true := by
  by_cases hu : userID = []
  · exact ⟨Error.errorf "user_id is required",
      by simp [SubscriptionService.SumSubscriptions, hu], rfl⟩
  · cases hf : parseMonthYear fromStr with
    | error err =>
      obtain ⟨reason, rfl⟩ := parseMonthYear_error _ _ hf
      exact ⟨Error.wrap "invalid from" (Error.parseError reason),
        by simp [SubscriptionService.SumSubscriptions, hu, hf], rfl⟩
    | ok from_ =>
      cases ht : parseMonthYear toStr with
      | error err =>
        obtain ⟨reason, rfl⟩ := parseMonthYear_error _ _ ht
        exact ⟨Error.wrap "invalid to" (Error.parseError reason),
          by simp [SubscriptionService.SumSubscriptions, hu, hf, ht], rfl⟩
      | ok to_ =>
        rcases h with h | ⟨err, h⟩ | ⟨err, h⟩
        · exact absurd h hu
        · rw [hf] at h; cases h
        · rw [ht] at h; cases h

theorem sum_text_cases (userID fromStr toStr : GoString) :
    (userID = [] ∨ (∃ err, parseMonthYear fromStr = Except.error err) ∨
      (∃ err, parseMonthYear toStr = Except.error err)) ∨
    (userID ≠ [] ∧ ∃ from_ to_, parseMonthYear fromStr = Except.ok from_ ∧
      parseMonthYear toStr = Except.ok to_) := by
  by_cases hu : userID = []
  · exact Or.inl (Or.inl hu)
  · cases hf : parseMonthYear fromStr with
    | error err => exact Or.inl (Or.inr (Or.inl ⟨err, rfl⟩))
    | ok from_ =>
      cases ht : parseMonthYear toStr with
      | error err => exact Or.inl (Or.inr (Or.inr ⟨err, rfl⟩))
      | ok to_ => exact Or.inr ⟨hu, from_, to_, rfl, rfl⟩

theorem GetSubscription_nonempty_id_error (db : DB) (id : GoString) (hid : id ≠ [])
    (hl : db.lookup id = none) :
    ∃ e, SubscriptionService.GetSubscription db none id =
        (Except.error e, { db with log := db.log ++ [Call.selectByID id] }) ∧
      e.isValidation = false := by
  have e : (sqlWhere [Cond.idEq id] db.rows).head? = db.lookup id := by
    simp [sqlWhere, DB.lookup, Cond.eval, head_filter_eq_find]
  rw [hl] at e
  refine ⟨Error.wrap "Failed to get subscription" (Error.pgx PgxError.ErrNoRows), ?_, rfl⟩
  simp [SubscriptionService.GetSubscription, SubscriptionRepo.GetSubscription, hid, e]

/-! ## Claims -/

/-- C1: `parseMonthYear s` succeeds exactly when `s` is a two-digit month 01..12, the
separator `-` and a four-digit year, and nothing else; the result is then the first day
of that month of that year at 00:00:00 UTC. `"07-2025"` gives July 1st 2025, while
`"13-2025"` and `"7-2025"` fail. -/
theorem parseMonthYear_accepts_exactly_month_year (s : GoString) :
    ((∃ t, parseMonthYear s = Except.ok t) ↔ ∃ year month, MonthYearText s year month) ∧
    (∀ t, parseMonthYear s = Except.ok t ↔
      ∃ year month, MonthYearText s year month ∧ t = firstOfMonth year month) ∧
    parseMonthYear (lit "07-2025") = Except.ok (firstOfMonth 2025 7) ∧
    (∃ e, parseMonthYear (lit "13-2025") = Except.error e) ∧
    (∃ e, parseMonthYear (lit "7-2025") = Except.error e) := by
  refine ⟨?_, fun t => firstOfMonth_spec s t, by decide, ⟨_, rfl⟩, ⟨_, rfl⟩⟩
  constructor
  · rintro ⟨t, ht⟩
    obtain ⟨year, month, htxt, -⟩ := (firstOfMonth_spec s t).mp ht
    exact ⟨year, month, htxt⟩
  · rintro ⟨year, month, htxt⟩
    exact ⟨_, (firstOfMonth_spec s _).mpr ⟨year, month, htxt, rfl⟩⟩

/-- C2: `CreateSubscription` returns a validation error and leaves the store untouched
(no row inserted, no statement sent) whenever service_name, user_id or the start_date
text is empty or price <= 0; an input with non-empty service_name and user_id, price > 0,
well-formed start_date and absent, empty or well-formed end_date is not rejected by
validation: the record built from it is handed to the repository `CreateSubscription`,
and the only possible error is the wrapped storage failure. -/
theorem CreateSubscription_validates_required_fields (db : DB)
    (ret : Except PgxError (GoString × Time × Time)) (dto : CreateSubscriptionDTO) :
    ((dto.ServiceName = [] ∨ dto.UserID = [] ∨ dto.StartDate = [] ∨ dto.Price ≤ 0) →
      ∃ e, SubscriptionService.CreateSubscription db ret dto = (Except.error e, db) ∧
        e.isValidation = true) ∧
    (∀ start endDate, dto.ServiceName ≠ [] → dto.UserID ≠ [] → 0 < dto.Price →
      parseMonthYear dto.StartDate = Except.ok start → EndDateText dto.EndDate endDate →
      (SubscriptionService.CreateSubscription db ret dto).2.log =
          db.log ++ [Call.insert
            { ID := [], ServiceName := dto.ServiceName, Price := dto.Price,
              UserID := dto.UserID, StartDate := start, EndDate := endDate,
              CreatedAt := Time.zero, UpdatedAt := Time.zero }] ∧
        (∀ e, (SubscriptionService.CreateSubscription db ret dto).1 = Except.error e →
          e.isValidation = false ∧ ∃ pe, ret = Except.error pe) ∧
        (∀ gen, ret = Except.ok gen →
          ∃ sub, (SubscriptionService.CreateSubscription db ret dto).1 = Except.ok sub)) := by
  constructor
  · intro h
    unfold SubscriptionService.CreateSubscription
    by_cases h1 : dto.ServiceName = []
    · exact ⟨Error.errorf "service_name is required", by rw [if_pos h1], rfl⟩
    · by_cases h2 : dto.Price ≤ 0
      · exact ⟨Error.errorf "price must be > 0", by rw [if_neg h1, if_pos h2], rfl⟩
      · by_cases h3 : dto.UserID = []
        · exact ⟨Error.errorf "user_id is required", by rw [if_neg h1, if_neg h2, if_pos h3], rfl⟩
        · by_cases h4 : dto.StartDate = []
          · exact ⟨Error.errorf "start_date is required",
              by rw [if_neg h1, if_neg h2, if_neg h3, if_pos h4], rfl⟩
          · rcases h with h | h | h | h
            · exact absurd h h1
            · exact absurd h h3
            · exact absurd h h4
            · exact absurd h h2
  · intro start endDate h1 h3 h2 h4 h5
    rw [create_accepted db ret dto start endDate h1 h2 h3 h4 h5]
    rcases ret with pe | ⟨id, createdAt, updatedAt⟩
    · refine ⟨rfl, ?_, ?_⟩
      · intro e he
        simp only [SubscriptionRepo.CreateSubscription] at he
        cases he
        exact ⟨rfl, pe, rfl⟩
      · intro gen hgen
        cases hgen
    · refine ⟨rfl, ?_, ?_⟩
      · intro e he
        simp only [SubscriptionRepo.CreateSubscription] at he
        cases he
      · intro gen _
        exact ⟨_, rfl⟩

/-- C2 at concrete inputs: an input with empty service_name, and the end-to-end example
input with a failing store. -/
theorem CreateSubscription_validates_required_fields_witness :
    (∃ e, SubscriptionService.CreateSubscription netflixDB (Except.ok (lit "2", stamp, stamp))
        { netflixDTO with ServiceName := [] } = (Except.error e, netflixDB) ∧
      e.isValidation = true) ∧
    (SubscriptionService.CreateSubscription DB.empty
        (Except.error (PgxError.failure 7)) netflixDTO).2.log =
      [Call.insert
        { ID := [], ServiceName := lit "Netflix", Price := 400, UserID := lit "u1",
          StartDate := firstOfMonth 2025 7, EndDate := none, CreatedAt := Time.zero,
          UpdatedAt := Time.zero }] :=
  ⟨(CreateSubscription_validates_required_fields netflixDB (Except.ok (lit "2", stamp, stamp))
      { netflixDTO with ServiceName := [] }).1 (Or.inl rfl),
   ((CreateSubscription_validates_required_fields DB.empty (Except.error (PgxError.failure 7))
      netflixDTO).2 (firstOfMonth 2025 7) none (by decide) (by decide) (by decide) (by decide)
      (Or.inl ⟨rfl, rfl⟩)).1⟩

/-- C3: for every valid create input on which the insert succeeds, the record returned by
`CreateSubscription` has the input's price, service_name and user_id, start_date the first
day (00:00 UTC) of the month named by the start_date text, end_date absent when the
input's end_date is missing or empty and otherwise the first day of the named month, and
id, created_at and updated_at as generated by the storage layer; this record is the row
added to the store. The Netflix example input gives price 400, start_date 2025-07-01 and
no end_date. -/
theorem CreateSubscription_returns_populated_record :
    (∀ (db : DB) (id : GoString) (createdAt updatedAt : Time) (dto : CreateSubscriptionDTO)
        (year month : Int) (endDate : Option Time),
      dto.ServiceName ≠ [] → dto.UserID ≠ [] → 0 < dto.Price →
      MonthYearText dto.StartDate year month → EndDateText dto.EndDate endDate →
      SubscriptionService.CreateSubscription db (Except.ok (id, createdAt, updatedAt)) dto =
        (Except.ok
          { ID := id, ServiceName := dto.ServiceName, Price := dto.Price, UserID := dto.UserID,
            StartDate := firstOfMonth year month, EndDate := endDate, CreatedAt := createdAt,
            UpdatedAt := updatedAt },
         { rows := db.rows ++
            [{ ID := id, ServiceName := dto.ServiceName, Price := dto.Price,
               UserID := dto.UserID, StartDate := firstOfMonth year month, EndDate := endDate,
               CreatedAt := createdAt, UpdatedAt := updatedAt }],
           log := db.log ++
            [Call.insert
              { ID := [], ServiceName := dto.ServiceName, Price := dto.Price,
                UserID := dto.UserID, StartDate := firstOfMonth year month, EndDate := endDate,
                CreatedAt := Time.zero, UpdatedAt := Time.zero }] })) ∧
    (∀ (db : DB) (id : GoString) (createdAt updatedAt : Time),
      (SubscriptionService.CreateSubscription db (Except.ok (id, createdAt, updatedAt))
          netflixDTO).1 =
        Except.ok
          { ID := id, ServiceName := lit "Netflix", Price := 400, UserID := lit "u1",
            StartDate := firstOfMonth 2025 7, EndDate := none, CreatedAt := createdAt,
            UpdatedAt := updatedAt }) := by
  have key : ∀ (db : DB) (id : GoString) (createdAt updatedAt : Time)
      (dto : CreateSubscriptionDTO) (start : Time) (endDate : Option Time),
      dto.ServiceName ≠ [] → dto.UserID ≠ [] → 0 < dto.Price →
      parseMonthYear dto.StartDate = Except.ok start → EndDateText dto.EndDate endDate →
      SubscriptionService.CreateSubscription db (Except.ok (id, createdAt, updatedAt)) dto =
        (Except.ok
          { ID := id, ServiceName := dto.ServiceName, Price := dto.Price, UserID := dto.UserID,
            StartDate := start, EndDate := endDate, CreatedAt := createdAt,
            UpdatedAt := updatedAt },
         { rows := db.rows ++
            [{ ID := id, ServiceName := dto.ServiceName, Price := dto.Price,
               UserID := dto.UserID, StartDate := start, EndDate := endDate,
               CreatedAt := createdAt, UpdatedAt := updatedAt }],
           log := db.log ++
            [Call.insert
              { ID := [], ServiceName := dto.ServiceName, Price := dto.Price,
                UserID := dto.UserID, StartDate := start, EndDate := endDate,
                CreatedAt := Time.zero, UpdatedAt := Time.zero }] }) := by
    intro db id createdAt updatedAt dto start endDate h1 h3 h2 h4 h5
    rw [create_accepted db _ dto start endDate h1 h2 h3 h4 h5]
    rfl
  constructor
  · intro db id createdAt updatedAt dto year month endDate h1 h3 h2 h4 h5
    exact key db id createdAt updatedAt dto _ endDate h1 h3 h2
      ((firstOfMonth_spec _ _).mpr ⟨year, month, h4, rfl⟩) h5
  · intro db id createdAt updatedAt
    rw [key db id createdAt updatedAt netflixDTO (firstOfMonth 2025 7) none (by decide)
      (by decide) (by decide) (by decide) (Or.inl ⟨rfl, rfl⟩)]
    rfl

/-- C3 at a concrete input: a December 2025 subscription with an end date, stored under
the generated id `"2"` next to the Netflix row. -/
theorem CreateSubscription_returns_populated_record_witness :
    SubscriptionService.CreateSubscription netflixDB (Except.ok (lit "2", stamp, stamp))
        { ServiceName := lit "Spotify", Price := 250, UserID := lit "u2",
          StartDate := lit "12-2025", EndDate := some (lit "03-2026") } =
      (Except.ok
        { ID := lit "2", ServiceName := lit "Spotify", Price := 250, UserID := lit "u2",
          StartDate := firstOfMonth 2025 12, EndDate := some (firstOfMonth 2026 3),
          CreatedAt := stamp, UpdatedAt := stamp },
       { rows := netflixDB.rows ++
          [{ ID := lit "2", ServiceName := lit "Spotify", Price := 250, UserID := lit "u2",
             StartDate := firstOfMonth 2025 12, EndDate := some (firstOfMonth 2026 3),
             CreatedAt := stamp, UpdatedAt := stamp }],
         log := netflixDB.log ++
          [Call.insert
            { ID := [], ServiceName := lit "Spotify", Price := 250, UserID := lit "u2",
              StartDate := firstOfMonth 2025 12, EndDate := some (firstOfMonth 2026 3),
              CreatedAt := Time.zero, UpdatedAt := Time.zero }] }) :=
  CreateSubscription_returns_populated_record.1 netflixDB (lit "2") stamp stamp
    { ServiceName := lit "Spotify", Price := 250, UserID := lit "u2",
      StartDate := lit "12-2025", EndDate := some (lit "03-2026") }
    2025 12 (some (firstOfMonth 2026 3)) (by decide) (by decide) (by decide)
    ⟨1, 2, 2, 0, 2, 5, by decide, by decide, by decide, by decide, by decide, by decide,
      by decide, by decide, by decide, by decide, by decide⟩
    (Or.inr (Or.inr ⟨lit "03-2026", firstOfMonth 2026 3, rfl, by decide, rfl⟩))

/-- C4: for every stored record `r` (the record the store holds under `r.ID`) and every
update input whose supplied date texts are well-formed, `UpdateSubscription r.ID dto`
on a working store returns the merged record: service_name, price, user_id, start_date
and end_date each come from the input when it supplies a non-empty / positive value and
from `r` otherwise, id and created_at are those of `r`. The merged record is the one
handed to the repository update, it becomes the stored record for `r.ID` (with
updated_at refreshed) and no other record changes. An input supplying only a price > 0
changes the price and nothing else. -/
theorem UpdateSubscription_merges_supplied_fields :
    (∀ (db : DB) (now : Time) (dto : CreateSubscriptionDTO) (r : Subscription)
        (start : Time) (endDate : Option Time),
      db.lookup r.ID = some r →
      (dto.StartDate = [] ∨ parseMonthYear dto.StartDate = Except.ok start) →
      EndDateText dto.EndDate endDate →
      (SubscriptionService.UpdateSubscription db none none now r.ID dto).1 =
          Except.ok (mergedRecord r dto start endDate) ∧
        (SubscriptionService.UpdateSubscription db none none now r.ID dto).2.log =
          db.log ++ [Call.selectByID r.ID, Call.update (mergedRecord r dto start endDate)] ∧
        (SubscriptionService.UpdateSubscription db none none now r.ID dto).2.lookup r.ID =
          some { mergedRecord r dto start endDate with UpdatedAt := now } ∧
        (∀ id, id ≠ r.ID →
          (SubscriptionService.UpdateSubscription db none none now r.ID dto).2.lookup id =
            db.lookup id)) ∧
    (∀ (db : DB) (now : Time) (r : Subscription) (p : Int),
      db.lookup r.ID = some r → 0 < p →
      (SubscriptionService.UpdateSubscription db none none now r.ID (priceOnly p)).1 =
        Except.ok { r with Price := p }) := by
  constructor
  · intro db now dto r start endDate hr hs he
    exact update_success db now dto r start endDate hr hs he
  · intro db now r p hr hp
    rw [(update_success db now (priceOnly p) r Time.zero none hr (Or.inl rfl)
      (Or.inl ⟨rfl, rfl⟩)).1]
    simp [mergedRecord, priceOnly, hp]

/-- C4 at a concrete input: the Netflix row updated with a new price and an end date. -/
theorem UpdateSubscription_merges_supplied_fields_witness :
    (SubscriptionService.UpdateSubscription netflixDB none none stamp netflixRow.ID
        { priceOnly 500 with EndDate := some (lit "12-2025") }).1 =
      Except.ok { netflixRow with Price := 500, EndDate := some (firstOfMonth 2025 12) } ∧
    (SubscriptionService.UpdateSubscription netflixDB none none stamp netflixRow.ID
        (priceOnly 500)).1 = Except.ok { netflixRow with Price := 500 } :=
  ⟨(UpdateSubscription_merges_supplied_fields.1 netflixDB stamp
      { priceOnly 500 with EndDate := some (lit "12-2025") } netflixRow Time.zero
      (some (firstOfMonth 2025 12)) (by decide) (Or.inl rfl)
      (Or.inr (Or.inr ⟨lit "12-2025", firstOfMonth 2025 12, rfl, by decide, rfl⟩))).1,
   UpdateSubscription_merges_supplied_fields.2 netflixDB stamp netflixRow 500 (by decide)
      (by decide)⟩

/-- C5 (as stated) fails: on a generic storage failure, and on the validation error for
an empty id, the Get handler answers 404 and not the client-error status 400, although
neither error is a not-found error. -/
theorem GetSubscription_handler_failure_is_not_400 :
    (∃ e, (SubscriptionService.GetSubscription netflixDB (some (PgxError.failure 1))
          (lit "1")).1 = Except.error e ∧ e.isNotFound = false ∧ e.isStorage = true) ∧
      (SubscriptionHandler.GetSubscription netflixDB (some (PgxError.failure 1))
          (lit "1")).1.status = 404 ∧
      (SubscriptionHandler.GetSubscription netflixDB (some (PgxError.failure 1))
          (lit "1")).1.status ≠ StatusBadRequest ∧
    (∃ e, (SubscriptionService.GetSubscription netflixDB none []).1 = Except.error e ∧
          e.isNotFound = false ∧ e.isValidation = true) ∧
      (SubscriptionHandler.GetSubscription netflixDB none []).1.status = 404 ∧
      (SubscriptionHandler.GetSubscription netflixDB none []).1.status ≠ StatusBadRequest := by
  refine ⟨⟨_, rfl, rfl, rfl⟩, by decide, by decide, ⟨_, rfl, rfl, rfl⟩, by decide, by decide⟩

/-- C5 (amended): the Get handler answers 404 with the error in the body for every error
of the service, whatever its kind (not found, validation, storage failure), and 200 with
the record when the read succeeds; a working store without a row for a non-empty id gives
a not-found error, and an empty id a validation error. -/
theorem GetSubscription_handler_status (db : DB) (fault : Option PgxError) (id : GoString) :
    (∀ e, (SubscriptionService.GetSubscription db fault id).1 = Except.error e →
      (SubscriptionHandler.GetSubscription db fault id).1 =
        { status := StatusNotFound, body := Body.error e }) ∧
    (∀ sub, (SubscriptionService.GetSubscription db fault id).1 = Except.ok sub →
      (SubscriptionHandler.GetSubscription db fault id).1 =
        { status := StatusOK, body := Body.record sub }) ∧
    (id ≠ [] → fault = none → db.lookup id = none →
      ∃ e, (SubscriptionService.GetSubscription db fault id).1 = Except.error e ∧
        e.isNotFound = true) ∧
    (id ≠ [] → fault = none → ∀ r, db.lookup id = some r →
      (SubscriptionService.GetSubscription db fault id).1 = Except.ok r) ∧
    (id = [] →
      ∃ e, (SubscriptionService.GetSubscription db fault id).1 = Except.error e ∧
        e.isValidation = true) := by
  have e : (sqlWhere [Cond.idEq id] db.rows).head? = db.lookup id := by
    simp [sqlWhere, DB.lookup, Cond.eval, head_filter_eq_find]
  refine ⟨?_, ?_, ?_, ?_, ?_⟩
  · intro err h
    unfold SubscriptionHandler.GetSubscription
    cases hs : SubscriptionService.GetSubscription db fault id with
    | mk res db1 =>
      rw [hs] at h
      simp only at h
      subst h
      rfl
  · intro sub h
    unfold SubscriptionHandler.GetSubscription
    cases hs : SubscriptionService.GetSubscription db fault id with
    | mk res db1 =>
      rw [hs] at h
      simp only at h
      subst h
      rfl
  · intro hid hf hl
    subst hf
    rw [hl] at e
    refine ⟨Error.wrap "Failed to get subscription" (Error.pgx PgxError.ErrNoRows), ?_, rfl⟩
    simp [SubscriptionService.GetSubscription, SubscriptionRepo.GetSubscription, hid, e]
  · intro hid hf r hl
    subst hf
    simp [SubscriptionService.GetSubscription, hid, repo_get_of_lookup db id r hl]
  · intro hid
    exact ⟨Error.errorf "id is required", by simp [SubscriptionService.GetSubscription, hid], rfl⟩

/-- C5 (amended) at concrete inputs: a storage failure gives 404, the stored Netflix row
gives 200. -/
theorem GetSubscription_handler_status_witness :
    (SubscriptionHandler.GetSubscription netflixDB (some (PgxError.failure 1)) (lit "1")).1 =
      { status := StatusNotFound,
        body := Body.error (Error.wrap "Failed to get subscription"
          (Error.pgx (PgxError.failure 1))) } ∧
    (SubscriptionHandler.GetSubscription netflixDB none (lit "1")).1 =
      { status := StatusOK, body := Body.record netflixRow } :=
  ⟨(GetSubscription_handler_status netflixDB (some (PgxError.failure 1)) (lit "1")).1 _ rfl,
   (GetSubscription_handler_status netflixDB none (lit "1")).2.1 _ rfl⟩

/-- C6: on a store that answers the statement, the repository `SumSubscriptions` returns
exactly the sum of price over the rows whose user_id is the given user, whose start_date
satisfies from <= start_date <= to (both bounds inclusive) and, when a service name is
given, whose service_name equals it; when no row matches the result is the integer 0,
with no error. -/
theorem SumSubscriptions_is_sum_of_matching_prices (db : DB) (userID : GoString)
    (serviceName : Option GoString) (from_ to_ : Time) :
    (SubscriptionRepo.SumSubscriptions db none userID serviceName from_ to_).1 =
        (totalPrice (sumRows db.rows userID serviceName from_ to_), none) ∧
      (∀ r, r ∈ sumRows db.rows userID serviceName from_ to_ ↔
        r ∈ db.rows ∧ r.UserID = userID ∧
          (Time.le from_ r.StartDate = true ∧ Time.le r.StartDate to_ = true) ∧
          (∀ n, serviceName = some n → r.ServiceName = n)) ∧
      ((∀ r ∈ db.rows, ¬ (r.UserID = userID ∧
          (Time.le from_ r.StartDate = true ∧ Time.le r.StartDate to_ = true) ∧
          (∀ n, serviceName = some n → r.ServiceName = n))) →
        (SubscriptionRepo.SumSubscriptions db none userID serviceName from_ to_).1 =
          (0, none)) := by
  have hmem : ∀ r, r ∈ sumRows db.rows userID serviceName from_ to_ ↔
      r ∈ db.rows ∧ r.UserID = userID ∧
        (Time.le from_ r.StartDate = true ∧ Time.le r.StartDate to_ = true) ∧
        (∀ n, serviceName = some n → r.ServiceName = n) := by
    intro r
    cases serviceName with
    | none => simp [sumRows, List.mem_filter]
    | some n => simp [sumRows, List.mem_filter, and_assoc]
  refine ⟨by rw [repo_sum_eval], hmem, ?_⟩
  intro hnone
  rw [repo_sum_eval]
  have hempty : sumRows db.rows userID serviceName from_ to_ = [] := by
    apply List.eq_nil_iff_forall_not_mem.mpr
    intro r hr
    have := (hmem r).mp hr
    exact hnone r this.1 this.2
  simp only [hempty]
  rfl

/-- C6 at concrete inputs: the Netflix row (400) is counted for user `u1` over 2025 and
the sum is 0 for user `u2`, who has no row. -/
theorem SumSubscriptions_is_sum_of_matching_prices_witness :
    (SubscriptionRepo.SumSubscriptions netflixDB none (lit "u1") none (firstOfMonth 2025 1)
        (firstOfMonth 2025 12)).1 = (400, none) ∧
    (SubscriptionRepo.SumSubscriptions netflixDB none (lit "u2") none (firstOfMonth 2025 1)
        (firstOfMonth 2025 12)).1 = (0, none) :=
  ⟨(SumSubscriptions_is_sum_of_matching_prices netflixDB (lit "u1") none (firstOfMonth 2025 1)
      (firstOfMonth 2025 12)).1,
   (SumSubscriptions_is_sum_of_matching_prices netflixDB (lit "u2") none (firstOfMonth 2025 1)
      (firstOfMonth 2025 12)).2.2 (by decide)⟩

/-- C7: in every store state reachable from the empty store through the service
operations, for every user id, service name and from/to texts, the value that
`SumSubscriptions` returns with the service_name filter (whatever the store answers) is
at most the value it returns without the filter on a store that answers the statement;
for a non-empty user id and well-formed texts both values are the sums over the matching
rows, returned without error. -/
theorem SumSubscriptions_filtered_le_unfiltered (db : DB) (h : Reachable db)
    (fault : Option PgxError) (userID n fromStr toStr : GoString) :
    (SubscriptionService.SumSubscriptions db fault userID (some n) fromStr toStr).1.1 ≤
        (SubscriptionService.SumSubscriptions db none userID none fromStr toStr).1.1 ∧
      (userID ≠ [] → ∀ from_ to_, parseMonthYear fromStr = Except.ok from_ →
        parseMonthYear toStr = Except.ok to_ →
        (SubscriptionService.SumSubscriptions db none userID (some n) fromStr toStr).1 =
            (totalPrice (sumRows db.rows userID (some n) from_ to_), none) ∧
          (SubscriptionService.SumSubscriptions db none userID none fromStr toStr).1 =
            (totalPrice (sumRows db.rows userID none from_ to_), none)) := by
  have hinv : db.Inv := reachable_inv db h
  constructor
  · rcases sum_text_cases userID fromStr toStr with hbad | ⟨hu, from_, to_, hf, ht⟩
    · obtain ⟨e1, h1, -⟩ := service_sum_rejected db fault userID (some n) fromStr toStr hbad
      obtain ⟨e2, h2, -⟩ := service_sum_rejected db none userID none fromStr toStr hbad
      rw [h1, h2]
    · rw [service_sum_eval db fault userID (some n) fromStr toStr from_ to_ hu hf ht,
        service_sum_eval db none userID none fromStr toStr from_ to_ hu hf ht,
        repo_sum_eval db userID none from_ to_]
      have hnn := sumRows_price_nonneg db hinv userID none from_ to_
      cases fault with
      | some pe => exact totalPrice_nonneg _ hnn
      | none =>
        rw [repo_sum_eval db userID (some n) from_ to_, sumRows_named]
        exact totalPrice_filter_le _ _ hnn
  · intro hu from_ to_ hf ht
    rw [service_sum_eval db none userID (some n) fromStr toStr from_ to_ hu hf ht,
      service_sum_eval db none userID none fromStr toStr from_ to_ hu hf ht,
      repo_sum_eval, repo_sum_eval]
    exact ⟨rfl, rfl⟩

/-- C7 at a concrete input: after creating the Netflix subscription in the empty store,
the sum for user `u1` over 2025 filtered by a service name is at most the unfiltered
sum. -/
theorem SumSubscriptions_filtered_le_unfiltered_witness :
    Reachable (SubscriptionService.CreateSubscription DB.empty
        (Except.ok (lit "1", stamp, stamp)) netflixDTO).2 ∧
    (SubscriptionService.SumSubscriptions
        (SubscriptionService.CreateSubscription DB.empty
          (Except.ok (lit "1", stamp, stamp)) netflixDTO).2
        none (lit "u1") (some (lit "Spotify")) (lit "01-2025") (lit "12-2025")).1.1 ≤
      (SubscriptionService.SumSubscriptions
        (SubscriptionService.CreateSubscription DB.empty
          (Except.ok (lit "1", stamp, stamp)) netflixDTO).2
        none (lit "u1") none (lit "01-2025") (lit "12-2025")).1.1 :=
  ⟨Reachable.create DB.empty _ netflixDTO Reachable.empty,
   (SumSubscriptions_filtered_le_unfiltered _
      (Reachable.create DB.empty (Except.ok (lit "1", stamp, stamp)) netflixDTO
        Reachable.empty)
      none (lit "u1") (lit "Spotify") (lit "01-2025") (lit "12-2025")).1⟩

/-- C8: every record the service hands to the repository for persistence has price > 0,
non-empty service_name and user_id and a start date set to a normalised month.
`CreateSubscription` and `UpdateSubscription` keep the invariant that all rows and all
records handed over for persistence satisfy these conditions, so every store state
reachable from the empty store through the service operations contains only such rows
and has only been asked to persist such records. -/
theorem service_persists_only_valid_records :
    (∀ (db : DB) (ret : Except PgxError (GoString × Time × Time))
        (dto : CreateSubscriptionDTO),
      db.Inv → (SubscriptionService.CreateSubscription db ret dto).2.Inv) ∧
    (∀ (db : DB) (getFault updFault : Option PgxError) (now : Time) (id : GoString)
        (dto : CreateSubscriptionDTO),
      db.Inv → (SubscriptionService.UpdateSubscription db getFault updFault now id dto).2.Inv) ∧
    (∀ db : DB, Reachable db →
      (∀ r ∈ db.rows, 0 < r.Price ∧ r.ServiceName ≠ [] ∧ r.UserID ≠ [] ∧
        r.StartDate.isMonthStart) ∧
      (∀ sub, Call.insert sub ∈ db.log ∨ Call.update sub ∈ db.log →
        0 < sub.Price ∧ sub.ServiceName ≠ [] ∧ sub.UserID ≠ [] ∧
          sub.StartDate.isMonthStart)) := by
  refine ⟨create_inv, update_inv, ?_⟩
  intro db h
  have hinv := reachable_inv db h
  refine ⟨fun r hr => hinv.1 r hr, ?_⟩
  intro sub hsub
  rcases hsub with hsub | hsub
  · exact hinv.2 _ hsub sub rfl
  · exact hinv.2 _ hsub sub rfl

/-- C8 at a concrete input: the store reached by creating the Netflix subscription and
then updating its price to 500. -/
theorem service_persists_only_valid_records_witness :
    Reachable (SubscriptionService.UpdateSubscription
        (SubscriptionService.CreateSubscription DB.empty
          (Except.ok (lit "1", stamp, stamp)) netflixDTO).2
        none none stamp (lit "1") (priceOnly 500)).2 ∧
    (∀ r ∈ (SubscriptionService.UpdateSubscription
        (SubscriptionService.CreateSubscription DB.empty
          (Except.ok (lit "1", stamp, stamp)) netflixDTO).2
        none none stamp (lit "1") (priceOnly 500)).2.rows,
      0 < r.Price ∧ r.ServiceName ≠ [] ∧ r.UserID ≠ [] ∧ r.StartDate.isMonthStart) :=
  ⟨Reachable.update _ none none stamp (lit "1") (priceOnly 500)
      (Reachable.create DB.empty _ netflixDTO Reachable.empty),
   (service_persists_only_valid_records.2.2 _
      (Reachable.update _ none none stamp (lit "1") (priceOnly 500)
        (Reachable.create DB.empty (Except.ok (lit "1", stamp, stamp)) netflixDTO
          Reachable.empty))).1⟩

/-- C9 (as stated) fails for `UpdateSubscription`: with a malformed start_date text for
the stored Netflix row it returns a validation error after the repository
`GetSubscription` has already been executed on the store. -/
theorem UpdateSubscription_validation_error_after_read :
    ∃ e db1,
      SubscriptionService.UpdateSubscription netflixDB none none stamp (lit "1")
          { priceOnly 500 with StartDate := lit "7-2025" } = (Except.error e, db1) ∧
        e.isValidation = true ∧ e.isStorage = false ∧
        db1.log = [Call.selectByID (lit "1")] ∧ db1.log ≠ netflixDB.log :=
  ⟨Error.wrap "invalid start_date" (Error.parseError "bad value"),
    { netflixDB with log := [Call.selectByID (lit "1")] },
    by decide, rfl, rfl, rfl, by decide⟩

/-- C9 (amended): when `CreateSubscription`, `GetSubscription`, `DeleteSubscription`,
`ListSubscriptions` or `SumSubscriptions` returns a validation error, no statement has
been sent to the store, which is unchanged. When `UpdateSubscription` returns a
validation error (a malformed date text), exactly the read of the record by id has been
executed, and nothing has been written. -/
theorem validation_failure_storage_access :
    (∀ (db : DB) (ret : Except PgxError (GoString × Time × Time))
        (dto : CreateSubscriptionDTO) (e : Error),
      (SubscriptionService.CreateSubscription db ret dto).1 = Except.error e →
      e.isValidation = true →
      (SubscriptionService.CreateSubscription db ret dto).2 = db) ∧
    (∀ (db : DB) (fault : Option PgxError) (id : GoString) (e : Error),
      (SubscriptionService.GetSubscription db fault id).1 = Except.error e →
      e.isValidation = true →
      (SubscriptionService.GetSubscription db fault id).2 = db) ∧
    (∀ (db : DB) (fault : Option PgxError) (id : GoString) (e : Error),
      (SubscriptionService.DeleteSubscription db fault id).1 = some e →
      e.isValidation = true →
      (SubscriptionService.DeleteSubscription db fault id).2 = db) ∧
    (∀ (db : DB) (fault : Option PgxError) (userID : GoString)
        (serviceName : Option GoString) (e : Error),
      (SubscriptionService.ListSubscriptions db fault userID serviceName).1 = Except.error e →
      e.isValidation = true →
      (SubscriptionService.ListSubscriptions db fault userID serviceName).2 = db) ∧
    (∀ (db : DB) (fault : Option PgxError) (userID : GoString)
        (serviceName : Option GoString) (fromStr toStr : GoString) (e : Error),
      (SubscriptionService.SumSubscriptions db fault userID serviceName fromStr toStr).1.2 =
        some e →
      e.isValidation = true →
      (SubscriptionService.SumSubscriptions db fault userID serviceName fromStr toStr).2 = db) ∧
    (∀ (db : DB) (getFault updFault : Option PgxError) (now : Time) (id : GoString)
        (dto : CreateSubscriptionDTO) (e : Error),
      (SubscriptionService.UpdateSubscription db getFault updFault now id dto).1 =
        Except.error e →
      e.isValidation = true →
      (SubscriptionService.UpdateSubscription db getFault updFault now id dto).2 =
        { rows := db.rows, log := db.log ++ [Call.selectByID id] }) := by
  refine ⟨?_, ?_, ?_, ?_, ?_, ?_⟩
  · intro db ret dto e he hv
    rcases create_cases db ret dto with ⟨e1, h1, -⟩ | ⟨start, endDate, h1, h2, h3, h4, h5⟩
    · rw [h1]
    · rw [create_accepted db ret dto start endDate h1 h2 h3 h4 h5] at he
      rcases ret with pe | ⟨id, createdAt, updatedAt⟩
      · simp only [SubscriptionRepo.CreateSubscription, Except.error.injEq] at he
        subst he
        cases hv
      · simp only [SubscriptionRepo.CreateSubscription] at he
        cases he
  · intro db fault id e he hv
    by_cases hid : id = []
    · simp [SubscriptionService.GetSubscription, hid]
    · simp only [SubscriptionService.GetSubscription, hid, if_false] at he
      cases fault with
      | some pe =>
        simp only [SubscriptionRepo.GetSubscription, Except.error.injEq] at he
        subst he
        cases hv
      | none =>
        cases hl : db.lookup id with
        | none =>
          obtain ⟨e1, h1, h2⟩ :=
            (GetSubscription_nonempty_id_error db id hid hl)
          rw [SubscriptionService.GetSubscription, if_neg hid] at h1
          rw [h1] at he
          cases he
          rw [hv] at h2
          cases h2
        | some r =>
          rw [repo_get_of_lookup db id r hl] at he
          cases he
  · intro db fault id e he hv
    by_cases hid : id = []
    · simp [SubscriptionService.DeleteSubscription, hid]
    · simp only [SubscriptionService.DeleteSubscription, hid, if_false] at he
      cases fault with
      | some pe =>
        simp only [SubscriptionRepo.DeleteSubscription, Option.some.injEq] at he
        subst he
        cases hv
      | none =>
        simp only [SubscriptionRepo.DeleteSubscription] at he
        cases he
  · intro db fault userID serviceName e he hv
    by_cases hid : userID = []
    · simp [SubscriptionService.ListSubscriptions, hid]
    · simp only [SubscriptionService.ListSubscriptions, hid, if_false] at he
      cases fault with
      | some pe =>
        simp only [SubscriptionRepo.ListSubscriptions, Except.error.injEq] at he
        subst he
        cases hv
      | none =>
        simp only [SubscriptionRepo.ListSubscriptions] at he
        cases he
  · intro db fault userID serviceName fromStr toStr e he hv
    rcases sum_text_cases userID fromStr toStr with hbad | ⟨hu, from_, to_, hf, ht⟩
    · obtain ⟨e1, h1, -⟩ := service_sum_rejected db fault userID serviceName fromStr toStr hbad
      rw [h1]
    · rw [service_sum_eval db fault userID serviceName fromStr toStr from_ to_ hu hf ht] at he
      cases fault with
      | some pe =>
        simp only [SubscriptionRepo.SumSubscriptions, Option.some.injEq] at he
        subst he
        cases hv
      | none =>
        simp only [SubscriptionRepo.SumSubscriptions] at he
        cases he
  · intro db getFault updFault now id dto e he hv
    rcases update_cases db getFault updFault now id dto with
      ⟨pe, h1⟩ | ⟨e1, h1, -⟩ | ⟨r, start, endDate, -, hl, hs, hend, h1⟩
    · rw [h1]
    · rw [h1]
    · rw [h1] at he
      cases updFault with
      | some pe =>
        simp only [SubscriptionRepo.UpdateSubscription, Except.error.injEq] at he
        subst he
        cases hv
      | none =>
        simp only [SubscriptionRepo.UpdateSubscription] at he
        cases he

/-- C9 (amended) at concrete inputs: a create input with a malformed start_date leaves
the store untouched, an update input with a malformed start_date has read the record. -/
theorem validation_failure_storage_access_witness :
    (SubscriptionService.CreateSubscription netflixDB (Except.ok (lit "2", stamp, stamp))
        { netflixDTO with StartDate := lit "13-2025" }).2 = netflixDB ∧
    (SubscriptionService.UpdateSubscription netflixDB none none stamp (lit "1")
        { priceOnly 500 with StartDate := lit "7-2025" }).2 =
      { rows := netflixDB.rows, log := netflixDB.log ++ [Call.selectByID (lit "1")] } :=
  ⟨validation_failure_storage_access.1 netflixDB (Except.ok (lit "2", stamp, stamp))
      { netflixDTO with StartDate := lit "13-2025" }
      (Error.wrap "invalid start_date" (Error.parseError "month out of range")) (by decide)
      (by decide),
   validation_failure_storage_access.2.2.2.2.2 netflixDB none none stamp (lit "1")
      { priceOnly 500 with StartDate := lit "7-2025" }
      (Error.wrap "invalid start_date" (Error.parseError "bad value")) (by decide)
      (by decide)⟩

/-- C10: `UpdateSubscription` never clears an end date. For every stored record with an
end date and every update input, the record returned by a successful `UpdateSubscription`,
which is the record handed to the repository update and the stored record afterwards
(up to updated_at), still has an end date; it is the stored end date when the input's
end_date is missing or the empty string. -/
theorem UpdateSubscription_never_clears_end_date (db : DB)
    (getFault updFault : Option PgxError) (now : Time) (id : GoString)
    (dto : CreateSubscriptionDTO) (r sub : Subscription)
    (hr : db.lookup id = some r) (hend : r.EndDate.isSome = true)
    (hok : (SubscriptionService.UpdateSubscription db getFault updFault now id dto).1 =
      Except.ok sub) :
    sub.EndDate.isSome = true ∧
      ((dto.EndDate = none ∨ dto.EndDate = some []) → sub.EndDate = r.EndDate) ∧
      (SubscriptionService.UpdateSubscription db getFault updFault now id dto).2.log =
        db.log ++ [Call.selectByID id, Call.update sub] ∧
      (SubscriptionService.UpdateSubscription db getFault updFault now id dto).2.lookup id =
        some { sub with UpdatedAt := now } := by
  obtain ⟨rfl, rfl, r1, start, endDate, hl, hs, he, rfl⟩ :=
    update_ok_inv db getFault updFault now id dto sub hok
  rw [hr] at hl
  cases hl
  have hid : r.ID = id := lookup_found_id db id r hr
  subst hid
  obtain ⟨-, h2, h3, -⟩ := update_success db now dto r start endDate hr hs he
  refine ⟨?_, ?_, h2, h3⟩
  · rcases he with ⟨-, rfl⟩ | ⟨-, rfl⟩ | ⟨txt, d, -, -, rfl⟩
    · exact hend
    · exact hend
    · rfl
  · intro hmiss
    rcases he with ⟨-, rfl⟩ | ⟨-, rfl⟩ | ⟨txt, d, he1, hp, rfl⟩
    · rfl
    · rfl
    · have hne : txt ≠ [] := parse_ne_nil txt d hp
      rcases hmiss with hm | hm
      · rw [hm] at he1; cases he1
      · rw [hm] at he1; cases he1; exact absurd rfl hne

/-- C10 at a concrete input: a row ending in December 2025, updated with an empty
end_date text and a new price, keeps its end date. -/
theorem UpdateSubscription_never_clears_end_date_witness :
    (some (firstOfMonth 2025 12) : Option Time).isSome = true ∧
    ((priceOnly 500).EndDate = none ∨ (priceOnly 500).EndDate = some [] →
      (some (firstOfMonth 2025 12) : Option Time) = some (firstOfMonth 2025 12)) ∧
    (SubscriptionService.UpdateSubscription
        { rows := [{ netflixRow with EndDate := some (firstOfMonth 2025 12) }], log := [] }
        none none stamp (lit "1") (priceOnly 500)).2.log =
      [] ++ [Call.selectByID (lit "1"), Call.update
        { netflixRow with Price := 500, EndDate := some (firstOfMonth 2025 12) }] ∧
    (SubscriptionService.UpdateSubscription
        { rows := [{ netflixRow with EndDate := some (firstOfMonth 2025 12) }], log := [] }
        none none stamp (lit "1") (priceOnly 500)).2.lookup (lit "1") =
      some { netflixRow with Price := 500, EndDate := some (firstOfMonth 2025 12),
                             UpdatedAt := stamp } :=
  UpdateSubscription_never_clears_end_date
    { rows := [{ netflixRow with EndDate := some (firstOfMonth 2025 12) }], log := [] }
    none none stamp (lit "1") (priceOnly 500)
    { netflixRow with EndDate := some (firstOfMonth 2025 12) }
    { netflixRow with Price := 500, EndDate := some (firstOfMonth 2025 12) }
    (by decide) (by decide) (by decide)

end Subscriptions
